import Mathlib

/-!
# Monkey runtime values and builtins (csueiras/monkey)

A shallow embedding of `object/object.go` and `evaluator/builtins.go`.

* Go pointers to structs are modelled by the struct value; the only pointer that
  the code under study can make nil is `*Set` (the result of `NewSet`), so a Set
  object carries an `Option Set`.
* The Go interface value `Object` has a `nil` inhabitant (a fresh slot of
  `make([]object.Object, n)`); it is the constructor `Object.nil`.
* A Go `map[HashKey]HashPair` is an association list with pairwise distinct keys;
  the order in which `range` visits it is not fixed by the language and is given
  by a `MapOrder` argument.
* A host-level fault (panic) is an `Except.error`.
* The memoised `hash` field is explicit state: `HashKey` returns the key together
  with the instance after the call.
-/

namespace Monkey

/-! ## Host types -/

/-- Go's builtin `string`. Its bytes are the UTF-8 encoding of the text. -/
abbrev GoString := String

/-- Go's `int64`: an integer in the two's complement range of 64 bits. -/
structure int64 where
  val : Int
  lo : -9223372036854775808 ≤ val
  hi : val < 9223372036854775808
deriving DecidableEq, Repr

/-- Conversion of an integer to `int64`, wrapping modulo 2^64. -/
def int64.ofInt (n : Int) : int64 :=
  ⟨(n + 9223372036854775808) % 18446744073709551616 - 9223372036854775808,
    by omega, by omega⟩

/-- Go's `uint64(x)` for `x : int64`: the 64-bit pattern of `x`, read unsigned. -/
def uint64 (x : int64) : Nat := (x.val % 18446744073709551616).toNat

/-- The bytes of a Go string, `[]byte(s)`. -/
def bytes (s : GoString) : List Nat := (s.data.flatMap String.utf8EncodeChar).map UInt8.toNat

/-- Host-level faults of the Go runtime. -/
inductive Panic where
  | nilDereference
  | typeAssertion
  | indexOutOfRange
deriving DecidableEq, Repr

/-- The order in which a `range` loop visits the entries of a map: some
rearrangement of the entries. -/
structure MapOrder where
  enum : {α : Type} → List α → List α
  perm : ∀ {α : Type} (l : List α), (enum l).Perm l

/-- The order that visits the entries as stored. -/
def MapOrder.stored : MapOrder := ⟨fun l => l, fun l => List.Perm.refl l⟩

/-- Go's `copy(dst, src)`: the first `min (len dst) (len src)` slots of `dst`
are overwritten with those of `src`; the result is the new contents of `dst`. -/
def copy {α : Type} (dst src : List α) : List α :=
  src.take dst.length ++ dst.drop src.length

/-- The assignment `m[k] = v` on a map. -/
def mapSet {κ ν : Type} [DecidableEq κ] : List (κ × ν) → κ → ν → List (κ × ν)
  | [], k, v => [(k, v)]
  | (k', v') :: rest, k, v =>
    if k' = k then (k, v) :: rest else (k', v') :: mapSet rest k v

/-! ## hash/fnv (Go standard library), 64-bit FNV-1a -/

def offset64 : Nat := 14695981039346656037

def prime64 : Nat := 1099511628211

/-- The method `(*sum64a).Write`: for each byte, xor then multiply, in `uint64`. -/
def sum64a_Write (hash : Nat) (data : List Nat) : Nat :=
  data.foldl (fun h c => ((h ^^^ c) * prime64) % 18446744073709551616) hash

/-- The digest computed by `h := fnv.New64a(); h.Write(data); h.Sum64()`. -/
def fnv64a (data : List Nat) : Nat := sum64a_Write offset64 data

/-! ## object/object.go -/

abbrev ObjectType := GoString

def INTEGER_OBJ : ObjectType := "INTEGER"
def BOOLEAN_OBJ : ObjectType := "BOOLEAN"
def NULL_OBJ : ObjectType := "NULL"
def RETURN_VALUE_OBJ : ObjectType := "RETURN_VALUE"
def ERROR_OBJ : ObjectType := "ERROR"
def FUNCTION_OBJ : ObjectType := "FUNCTION"
def STRING_OBJ : ObjectType := "STRING"
def BUILTIN_OBJ : ObjectType := "BUILTIN"
def ARRAY_OBJ : ObjectType := "ARRAY"
def HASH_OBJ : ObjectType := "HASH"
def SET_OBJ : ObjectType := "SET"

structure HashKey where
  Type_ : ObjectType
  Value : Nat
deriving DecidableEq, Repr

/-- The struct `Integer`; `hash` is the memoised key (`none` for a nil pointer). -/
structure Integer where
  Value : int64
  hash : Option HashKey
deriving DecidableEq, Repr

structure Boolean where
  Value : Bool
  hash : Option HashKey
deriving DecidableEq, Repr

structure String where
  Value : GoString
  hash : Option HashKey
deriving DecidableEq, Repr

mutual
/-- A value of the interface type `Object`. `Function` keeps the `String()` text
of its parameters and body (package `ast` is outside this development) and
`Builtin` keeps the registry name of its `Fn`. -/
inductive Object where
  | nil
  | integer (i : Integer)
  | boolean (b : Boolean)
  | null
  | returnValue (Value : Object)
  | error (Message : GoString)
  | function (Parameters : List GoString) (Body : GoString)
  | string (s : String)
  | builtin (Fn : GoString)
  | array (Elements : List Object)
  | hash (Pairs : List (HashKey × HashPair))
  | set (s : Option Set)
inductive HashPair where
  | mk (Key : Object) (Value : Object)
inductive Set where
  | mk (Data : List (HashKey × HashPair))
end

def HashPair.Key : HashPair → Object
  | .mk k _ => k

def HashPair.Value : HashPair → Object
  | .mk _ v => v

def Set.Data : Set → List (HashKey × HashPair)
  | .mk d => d

/-- The method `Type()`. Calling it on the nil interface faults; on a nil `*Set`
it returns `SET_OBJ`, since the receiver is not dereferenced. -/
def Object.Type_ : Object → Except Panic ObjectType
  | .nil => .error .nilDereference
  | .integer _ => .ok INTEGER_OBJ
  | .boolean _ => .ok BOOLEAN_OBJ
  | .null => .ok NULL_OBJ
  | .returnValue _ => .ok RETURN_VALUE_OBJ
  | .error _ => .ok ERROR_OBJ
  | .function _ _ => .ok FUNCTION_OBJ
  | .string _ => .ok STRING_OBJ
  | .builtin _ => .ok BUILTIN_OBJ
  | .array _ => .ok ARRAY_OBJ
  | .hash _ => .ok HASH_OBJ
  | .set _ => .ok SET_OBJ

def Boolean.HashKey (b : Boolean) : HashKey × Boolean :=
  match b.hash with
  | none =>
    let value : Nat := if b.Value then 1 else 0
    (⟨BOOLEAN_OBJ, value⟩, { b with hash := some ⟨BOOLEAN_OBJ, value⟩ })
  | some k => (k, b)

def Integer.HashKey (i : Integer) : HashKey × Integer :=
  match i.hash with
  | none => (⟨INTEGER_OBJ, uint64 i.Value⟩, { i with hash := some ⟨INTEGER_OBJ, uint64 i.Value⟩ })
  | some k => (k, i)

def String.HashKey (s : String) : HashKey × String :=
  match s.hash with
  | none =>
    (⟨STRING_OBJ, fnv64a (bytes s.Value)⟩,
      { s with hash := some ⟨STRING_OBJ, fnv64a (bytes s.Value)⟩ })
  | some k => (k, s)

/-- The interface `Hashable`: the dynamic types that have a `HashKey` method. -/
inductive Hashable where
  | integer (i : Integer)
  | boolean (b : Boolean)
  | string (s : String)
deriving DecidableEq, Repr

def Hashable.HashKey : Hashable → HashKey × Hashable
  | .integer i => ((i.HashKey).1, .integer (i.HashKey).2)
  | .boolean b => ((b.HashKey).1, .boolean (b.HashKey).2)
  | .string s => ((s.HashKey).1, .string (s.HashKey).2)

def Hashable.toObject : Hashable → Object
  | .integer i => .integer i
  | .boolean b => .boolean b
  | .string s => .string s

/-- The type assertion `element.(Hashable)`, with its comma-ok flag as `Option`. -/
def Object.asHashable : Object → Option Hashable
  | .integer i => some (.integer i)
  | .boolean b => some (.boolean b)
  | .string s => some (.string s)
  | _ => none

/-- The loop of `NewSet` over the remaining elements, `pairs` being the map so
far. The stored `Key` is the element itself, whose `hash` field the call to
`HashKey` has filled. -/
def NewSet.loop (pairs : List (HashKey × HashPair)) :
    List Object → Option (List (HashKey × HashPair))
  | [] => some pairs
  | element :: rest =>
    match element.asHashable with
    | none => none
    | some hashable =>
      NewSet.loop (mapSet pairs (hashable.HashKey).1
        (HashPair.mk (hashable.HashKey).2.toObject Object.nil)) rest

/-- The result of `NewSet` is a `*Set`; `none` is the nil pointer. -/
def NewSet (elements : List Object) : Option Set :=
  (NewSet.loop [] elements).map Set.mk

/-- The method `Elements()` on a `*Set`; reading `s.Data` through a nil receiver
faults. -/
def Set.Elements (ord : MapOrder) : Option Set → Except Panic (List Object)
  | none => .error .nilDereference
  | some s => .ok ((ord.enum s.Data).map fun kv => kv.2.Key)

mutual
/-- The method `Inspect()`. A map is rendered entry by entry and the rendered
entries are joined in the order of the `range` loop. -/
def Object.Inspect (ord : MapOrder) : Object → Except Panic GoString
  | .nil => .error .nilDereference
  | .integer i => .ok (toString i.Value.val)
  | .boolean b => .ok (toString b.Value)
  | .null => .ok "null"
  | .returnValue v => v.Inspect ord
  | .error m => .ok ("ERROR: " ++ m)
  | .function ps body =>
    .ok ("fn" ++ "(" ++ ",".intercalate ps ++ ") \x7b\n" ++ body ++ "\n\x7d")
  | .string s => .ok s.Value
  | .builtin _ => .ok "builtin function"
  | .array es =>
    match Object.inspectElements ord es with
    | .error p => .error p
    | .ok elements => .ok ("[" ++ ",".intercalate elements ++ "]")
  | .hash ps =>
    match Object.inspectPairs ord ps with
    | .error p => .error p
    | .ok pairs => .ok ("\x7b" ++ ", ".intercalate (ord.enum pairs) ++ "\x7d")
  | .set none => .error .nilDereference
  | .set (some (.mk d)) =>
    match Object.inspectKeys ord d with
    | .error p => .error p
    | .ok elements => .ok ("set" ++ "(" ++ ",".intercalate (ord.enum elements) ++ ")")
/-- The texts `e.Inspect()` of the elements of an array. -/
def Object.inspectElements (ord : MapOrder) : List Object → Except Panic (List GoString)
  | [] => .ok []
  | e :: es =>
    match e.Inspect ord with
    | .error p => .error p
    | .ok a =>
      match Object.inspectElements ord es with
      | .error p => .error p
      | .ok as => .ok (a :: as)
/-- The texts `"%s: %s"` of the pairs of a hash. -/
def Object.inspectPairs (ord : MapOrder) : List (HashKey × HashPair) → Except Panic (List GoString)
  | [] => .ok []
  | (_, .mk k v) :: es =>
    match k.Inspect ord with
    | .error p => .error p
    | .ok a =>
      match v.Inspect ord with
      | .error p => .error p
      | .ok b =>
        match Object.inspectPairs ord es with
        | .error p => .error p
        | .ok as => .ok ((a ++ ": " ++ b) :: as)
/-- The texts `e.Inspect()` of the members of a set. -/
def Object.inspectKeys (ord : MapOrder) : List (HashKey × HashPair) → Except Panic (List GoString)
  | [] => .ok []
  | (_, .mk k _) :: es =>
    match k.Inspect ord with
    | .error p => .error p
    | .ok a =>
      match Object.inspectKeys ord es with
      | .error p => .error p
      | .ok as => .ok (a :: as)
end

/-! ## evaluator/builtins.go -/

/-- Modelled from the spec: `newError` of evaluator.go, which is not among the
sources. It wraps the formatted message in an `Error` value; the formatting
(`%d` as a decimal numeral, `%s` as the text) is done at each call. -/
def newError (message : GoString) : Object := .error message

/-- Modelled from the spec: `NULL` of evaluator.go, the one `Null` value. -/
def NULL : Object := .null

/-- A freshly made integer object, `&object.Integer{Value: int64(n)}`. -/
def newInteger (n : Nat) : Object := .integer ⟨int64.ofInt n, none⟩

/-- The builtin `len`. The `default` branch of the type switch calls `Type()`
on the argument. -/
def builtins.len (ord : MapOrder) (args : List Object) : Except Panic Object :=
  match args with
  | [arg] =>
    match arg with
    | .string s => .ok (newInteger (bytes s.Value).length)
    | .array es => .ok (newInteger es.length)
    | .hash ps => .ok (newInteger ps.length)
    | .set s =>
      match Set.Elements ord s with
      | .error p => .error p
      | .ok es => .ok (newInteger es.length)
    | _ =>
      match arg.Type_ with
      | .error p => .error p
      | .ok t => .ok (newError ("argument to `len` not supported, got " ++ t))
  | _ => .ok (newError ("wrong number of arguments. got=" ++ toString args.length ++ ", want=1"))

def builtins.first (args : List Object) : Except Panic Object :=
  match args with
  | [arg] =>
    match arg.Type_ with
    | .error p => .error p
    | .ok t =>
      if t ≠ ARRAY_OBJ then
        .ok (newError ("argument to `first` must be ARRAY, got " ++ t))
      else
        match arg with
        | .array es =>
          if es.length > 0 then
            match es[0]? with
            | some e => .ok e
            | none => .error .indexOutOfRange
          else .ok NULL
        | _ => .error .typeAssertion
  | _ => .ok (newError ("wrong number of arguments. got=" ++ toString args.length ++ ", want=1"))

def builtins.last (args : List Object) : Except Panic Object :=
  match args with
  | [arg] =>
    match arg.Type_ with
    | .error p => .error p
    | .ok t =>
      if t ≠ ARRAY_OBJ then
        .ok (newError ("argument to `last` must be ARRAY, got " ++ t))
      else
        match arg with
        | .array es =>
          if es.length > 0 then
            match es[es.length - 1]? with
            | some e => .ok e
            | none => .error .indexOutOfRange
          else .ok NULL
        | _ => .error .typeAssertion
  | _ => .ok (newError ("wrong number of arguments. got=" ++ toString args.length ++ ", want=1"))

/-- The builtin `rest`: a new slice of length `length-1` receives
`arr.Elements[1:length]`. -/
def builtins.rest (args : List Object) : Except Panic Object :=
  match args with
  | [arg] =>
    match arg.Type_ with
    | .error p => .error p
    | .ok t =>
      if t ≠ ARRAY_OBJ then
        .ok (newError ("argument to `rest` must be ARRAY, got " ++ t))
      else
        match arg with
        | .array es =>
          if es.length > 0 then
            .ok (.array (copy (List.replicate (es.length - 1) Object.nil)
              ((es.take es.length).drop 1)))
          else .ok NULL
        | _ => .error .typeAssertion
  | _ => .ok (newError ("wrong number of arguments. got=" ++ toString args.length ++ ", want=1"))

/-- The builtin `push`. In the Array branch the last slot of the new slice is
assigned `args[1]`; in the Set branch it is left as made. -/
def builtins.push (ord : MapOrder) (args : List Object) : Except Panic Object :=
  match args with
  | [arg0, arg1] =>
    match arg0.Type_ with
    | .error p => .error p
    | .ok t =>
      if t ≠ ARRAY_OBJ ∧ t ≠ SET_OBJ then
        .ok (newError ("argument to `push` must be ARRAY or SET, got " ++ t))
      else
        match arg0 with
        | .array es =>
          .ok (.array ((copy (List.replicate (es.length + 1) Object.nil) es).set es.length arg1))
        | .set s =>
          match Set.Elements ord s with
          | .error p => .error p
          | .ok setElements =>
            .ok (.set (NewSet (copy (List.replicate (setElements.length + 1) Object.nil)
              setElements)))
        | _ => .ok NULL
  | _ => .ok (newError ("wrong number of arguments. got=" ++ toString args.length ++ ", want=2"))

/-- The builtin `union`. Both `Type()` calls are made on every path past the
arity check (in the condition or in the arguments of `newError`), so they come
first here. The destination `newSet` of both `copy` calls is the nil slice. -/
def builtins.union (ord : MapOrder) (args : List Object) : Except Panic Object :=
  match args with
  | [arg0, arg1] =>
    match arg0.Type_ with
    | .error p => .error p
    | .ok t0 =>
      match arg1.Type_ with
      | .error p => .error p
      | .ok t1 =>
        if t0 ≠ SET_OBJ ∨ t1 ≠ SET_OBJ then
          .ok (newError ("arguments to `union` must both be sets, union(" ++ t0 ++ ", " ++ t1
            ++ ")"))
        else
          match arg0, arg1 with
          | .set setA, .set setB =>
            match Set.Elements ord setA with
            | .error p => .error p
            | .ok elementsA =>
              match Set.Elements ord setB with
              | .error p => .error p
              | .ok elementsB => .ok (.set (NewSet (copy (copy [] elementsA) elementsB)))
          | _, _ => .error .typeAssertion
  | _ => .ok (newError ("wrong number of arguments, got=" ++ toString args.length ++ ", want=2"))

/-- The builtin `puts`: the text written to standard output, and the result.
`fmt.Println` writes its argument followed by a newline. -/
def builtins.puts (ord : MapOrder) : List Object → GoString × Except Panic Object
  | [] => ("", .ok NULL)
  | arg :: rest =>
    match arg.Inspect ord with
    | .error p => ("", .error p)
    | .ok text => (text ++ "\n" ++ (builtins.puts ord rest).1, (builtins.puts ord rest).2)

/-- The type `BuiltinFunction`, with the order of map iteration and the text
written to standard output made explicit. -/
abbrev BuiltinFunction := MapOrder → List Object → GoString × Except Panic Object

/-- The registry `builtins`. -/
def builtins (name : GoString) : Option BuiltinFunction :=
  if name = "len" then some fun ord args => ("", builtins.len ord args)
  else if name = "first" then some fun _ args => ("", builtins.first args)
  else if name = "last" then some fun _ args => ("", builtins.last args)
  else if name = "rest" then some fun _ args => ("", builtins.rest args)
  else if name = "push" then some fun ord args => ("", builtins.push ord args)
  else if name = "union" then some fun ord args => ("", builtins.union ord args)
  else if name = "puts" then some fun ord args => builtins.puts ord args
  else none


/-! ## Auxiliary notions -/

/-- A freshly built Integer object, as for an integer literal. -/
def Object.ofInt (n : Int) : Object := .integer ⟨int64.ofInt n, none⟩

/-- The Set object built by `NewSet` from the given elements. -/
def Object.ofElements (l : List Object) : Object := .set (NewSet l)

/-- The key that `HashKey` returns for an object, when it is `Hashable`. -/
def Object.hashKey? (o : Object) : Option HashKey :=
  o.asHashable.map fun h => (h.HashKey).1

/-- The state of an object after its `HashKey` method has been called. -/
def Object.afterHashKey (o : Object) : Object :=
  match o.asHashable with
  | some h => (h.HashKey).2.toObject
  | none => o

/-- The type tag of a hashable value, the result of its `Type()`. -/
def Hashable.Type_ : Hashable → ObjectType
  | .integer _ => INTEGER_OBJ
  | .boolean _ => BOOLEAN_OBJ
  | .string _ => STRING_OBJ

/-- The instance with an empty memo, as a struct literal builds it. -/
def Hashable.fresh : Hashable → Hashable
  | .integer i => .integer { i with hash := none }
  | .boolean b => .boolean { b with hash := none }
  | .string s => .string { s with hash := none }

/-- The memo of the instance is empty or holds the key of its `Value`. The field
`hash` is unexported and written by `HashKey` only, so every instance satisfies
this. -/
def Hashable.memoValid (h : Hashable) : Prop := (h.HashKey).1 = (h.fresh.HashKey).1

def Hashable.isString : Hashable → Bool
  | .string _ => true
  | _ => false

/-- The relation of the specification between two hashable values: the same
variant and the same logical content (the same integer, the same boolean, the
same string bytes). -/
def Hashable.sameContent : Hashable → Hashable → Prop
  | .integer i, .integer j => i.Value = j.Value
  | .boolean a, .boolean b => a.Value = b.Value
  | .string s, .string t => bytes s.Value = bytes t.Value
  | _, _ => False

/-- Two String objects with different texts, `collisionA` and `collisionB`. -/
def collisionA : Hashable := .string ⟨"besy0foath12m", none⟩

def collisionB : Hashable := .string ⟨"euvkeb01t10md", none⟩

/-- The template `"wrong number of arguments. got=%d, want=%d"` of the
specification. -/
def wrongNumberOfArguments (got want : Nat) : GoString :=
  "wrong number of arguments. got=" ++ toString got ++ ", want=" ++ toString want

/-- The template "argument to `%s` must be %s, got %s" of the specification. -/
def argumentMustBe (name expected actual : GoString) : GoString :=
  "argument to `" ++ name ++ "` must be " ++ expected ++ ", got " ++ actual

/-- The template "argument to `%s` not supported, got %s" of the specification. -/
def argumentNotSupported (name actual : GoString) : GoString :=
  "argument to `" ++ name ++ "` not supported, got " ++ actual

/-- A freshly built String object, as for a string literal. -/
def Object.ofString (s : GoString) : Object := .string ⟨s, none⟩

/-- A freshly built Boolean object. -/
def Object.ofBool (b : Bool) : Object := .boolean ⟨b, none⟩

/-- The `hash` field of a hashable instance. -/
def Hashable.hash : Hashable → Option Monkey.HashKey
  | .integer i => i.hash
  | .boolean b => b.hash
  | .string s => s.hash

/-- The text made of the given texts, each on a line of its own: each is followed
by a newline. -/
def linesOf : List GoString → GoString
  | [] => ""
  | t :: ts => t ++ "\n" ++ linesOf ts

/-- The decimal numeral of an integer: a minus sign for a negative one, then the
digits. -/
def decimal (v : Int) : GoString :=
  if 0 ≤ v then Nat.repr v.toNat else "-" ++ Nat.repr (-v).toNat

mutual
/-- The object is a value: neither it nor anything that `Inspect` reads below it
is the nil interface value or the nil Set pointer. -/
def Object.isValue : Object → Bool
  | .nil => false
  | .integer _ => true
  | .boolean _ => true
  | .null => true
  | .returnValue v => v.isValue
  | .error _ => true
  | .function _ _ => true
  | .string _ => true
  | .builtin _ => true
  | .array es => Object.areValues es
  | .hash ps => Object.pairsAreValues ps
  | .set none => false
  | .set (some (.mk d)) => Object.keysAreValues d
/-- All the elements of an Array are values. -/
def Object.areValues : List Object → Bool
  | [] => true
  | e :: es => e.isValue && Object.areValues es
/-- All the keys and values of a Hash are values. -/
def Object.pairsAreValues : List (HashKey × HashPair) → Bool
  | [] => true
  | (_, .mk k v) :: ps => k.isValue && v.isValue && Object.pairsAreValues ps
/-- All the members of a Set are values. -/
def Object.keysAreValues : List (HashKey × HashPair) → Bool
  | [] => true
  | (_, .mk k _) :: ps => k.isValue && Object.keysAreValues ps
end

/-! ## Lemmas on slices and maps -/

theorem copy_nil_dst {α : Type} (src : List α) : copy ([] : List α) src = [] := by
  simp [copy]

theorem copy_replicate_succ {α : Type} (a : α) (src : List α) (n : Nat) (h : src.length = n) :
    copy (List.replicate (n + 1) a) src = src ++ [a] := by
  subst h
  simp [copy]

theorem copy_replicate_same {α : Type} (a : α) (src : List α) (n : Nat) (h : src.length = n) :
    copy (List.replicate n a) src = src := by
  subst h
  simp [copy]

theorem NewSet_loop_append_nil (es : List Object) (pairs : List (HashKey × HashPair)) :
    NewSet.loop pairs (es ++ [Object.nil]) = none := by
  induction es generalizing pairs with
  | nil => simp [NewSet.loop, Object.asHashable]
  | cons e es ih =>
    simp only [List.cons_append, NewSet.loop]
    cases e.asHashable with
    | none => rfl
    | some h => exact ih _

theorem NewSet_append_nil (es : List Object) : NewSet (es ++ [Object.nil]) = none := by
  simp [NewSet, NewSet_loop_append_nil]

/-- On a Set that is not the nil pointer, `push` hands `NewSet` the members
followed by one unassigned slot, and `NewSet` answers nil. -/
theorem push_set_eq_nil (ord : MapOrder) (s : Set) (v : Object) :
    builtins.push ord [Object.set (some s), v] = .ok (Object.set none) := by
  have h := copy_replicate_succ Object.nil ((ord.enum s.Data).map fun kv => kv.2.Key)
    ((ord.enum s.Data).map fun kv => kv.2.Key).length rfl
  simp only [builtins.push, Object.Type_, Set.Elements, h, NewSet_append_nil]
  simp [SET_OBJ, ARRAY_OBJ]

/-- On two Sets that are not the nil pointer, `union` hands `NewSet` an empty
slice. -/
theorem union_sets_eq_empty (ord : MapOrder) (a b : Set) :
    builtins.union ord [Object.set (some a), Object.set (some b)]
      = .ok (Object.set (some (Set.mk []))) := by
  simp [builtins.union, Object.Type_, Set.Elements, copy_nil_dst, NewSet, NewSet.loop]


theorem mem_keys_mapSet {κ ν : Type} [DecidableEq κ] (m : List (κ × ν)) (k : κ) (v : ν) (k' : κ) :
    k' ∈ (mapSet m k v).map Prod.fst ↔ k' = k ∨ k' ∈ m.map Prod.fst := by
  induction m with
  | nil => simp [mapSet]
  | cons kv rest ih =>
    obtain ⟨k0, v0⟩ := kv
    by_cases h : k0 = k
    · subst h
      simp [mapSet]
    · simp only [mapSet, h, if_false, List.map_cons, List.mem_cons, ih]
      tauto

theorem nodup_keys_mapSet {κ ν : Type} [DecidableEq κ] (m : List (κ × ν)) (k : κ) (v : ν)
    (h : (m.map Prod.fst).Nodup) : ((mapSet m k v).map Prod.fst).Nodup := by
  induction m with
  | nil => simp [mapSet]
  | cons kv rest ih =>
    obtain ⟨k0, v0⟩ := kv
    simp only [List.map_cons, List.nodup_cons] at h
    by_cases hk : k0 = k
    · subst hk
      simpa [mapSet] using h
    · simp only [mapSet, hk, if_false, List.map_cons, List.nodup_cons]
      refine ⟨?_, ih h.2⟩
      rw [mem_keys_mapSet]
      intro hc
      rcases hc with hc | hc
      · exact hk hc
      · exact h.1 hc

theorem mem_mapSet {κ ν : Type} [DecidableEq κ] (m : List (κ × ν)) (k : κ) (v : ν) (k' : κ)
    (v' : ν) (hnd : (m.map Prod.fst).Nodup) (h : (k', v') ∈ mapSet m k v) :
    (k' = k ∧ v' = v) ∨ ((k', v') ∈ m ∧ k' ≠ k) := by
  induction m with
  | nil =>
    simp only [mapSet, List.mem_singleton, Prod.mk.injEq] at h
    exact Or.inl h
  | cons kv rest ih =>
    obtain ⟨k0, v0⟩ := kv
    simp only [List.map_cons, List.nodup_cons] at hnd
    by_cases hk : k0 = k
    · subst hk
      simp only [mapSet, if_true, List.mem_cons, Prod.mk.injEq] at h
      rcases h with h | h
      · exact Or.inl h
      · by_cases hkk : k' = k0
        · exfalso
          apply hnd.1
          rw [← hkk]
          exact List.mem_map_of_mem Prod.fst h
        · exact Or.inr ⟨List.mem_cons_of_mem _ h, hkk⟩
    · simp only [mapSet, hk, if_false, List.mem_cons, Prod.mk.injEq] at h
      rcases h with h | h
      · right
        refine ⟨List.mem_cons.2 (Or.inl (by simp [h.1, h.2])), ?_⟩
        rw [h.1]
        exact hk
      · rcases ih hnd.2 h with h1 | h1
        · exact Or.inl h1
        · exact Or.inr ⟨List.mem_cons_of_mem _ h1.1, h1.2⟩

theorem Hashable.HashKey_idem (h : Hashable) :
    ((h.HashKey).2.HashKey).1 = (h.HashKey).1 := by
  cases h with
  | integer i =>
    obtain ⟨v, c⟩ := i
    cases c <;> rfl
  | boolean b =>
    obtain ⟨v, c⟩ := b
    cases c <;> rfl
  | string s =>
    obtain ⟨v, c⟩ := s
    cases c <;> rfl

theorem Hashable.asHashable_toObject (h : Hashable) : h.toObject.asHashable = some h := by
  cases h <;> rfl

theorem Object.hashKey?_afterHashKey (o : Object) : o.afterHashKey.hashKey? = o.hashKey? := by
  unfold Object.afterHashKey Object.hashKey?
  cases ho : o.asHashable with
  | none => simp [ho]
  | some h => simp [Hashable.asHashable_toObject, Hashable.HashKey_idem]

/-- The loop of `NewSet` on hashable elements, started from a map with distinct
keys: it ends with a map with distinct keys, whose keys are the old ones and those
of the elements, and every entry is either an old one that no element replaced or
holds the last element with that key. -/
theorem NewSet_loop_spec (l : List Object) (pairs : List (HashKey × HashPair))
    (hl : ∀ e ∈ l, e.asHashable.isSome = true) (hnd : (pairs.map Prod.fst).Nodup) :
    ∃ d, NewSet.loop pairs l = some d ∧ (d.map Prod.fst).Nodup ∧
      (∀ k, k ∈ d.map Prod.fst ↔ k ∈ pairs.map Prod.fst ∨ some k ∈ l.map Object.hashKey?) ∧
      ∀ k p, (k, p) ∈ d →
        ((k, p) ∈ pairs ∧ ∀ e ∈ l, e.hashKey? ≠ some k) ∨
        ∃ l1 e l2, l = l1 ++ e :: l2 ∧ e.hashKey? = some k ∧
          (∀ e' ∈ l2, e'.hashKey? ≠ some k) ∧ p = HashPair.mk e.afterHashKey Object.nil := by
  induction l generalizing pairs with
  | nil =>
    exact ⟨pairs, rfl, hnd, by simp, fun k p hkp => Or.inl ⟨hkp, by simp⟩⟩
  | cons e l ih =>
    have he := hl e (List.mem_cons_self e l)
    obtain ⟨h, hh⟩ := Option.isSome_iff_exists.1 he
    have hkey : e.hashKey? = some (h.HashKey).1 := by simp [Object.hashKey?, hh]
    have hafter : e.afterHashKey = (h.HashKey).2.toObject := by simp [Object.afterHashKey, hh]
    obtain ⟨d, hd, hdn, hdk, hdp⟩ :=
      ih (mapSet pairs (h.HashKey).1 (HashPair.mk (h.HashKey).2.toObject Object.nil))
        (fun e' he' => hl e' (List.mem_cons_of_mem e he'))
        (nodup_keys_mapSet _ _ _ hnd)
    refine ⟨d, ?_, hdn, ?_, ?_⟩
    · simp only [NewSet.loop, hh]
      exact hd
    · intro k
      rw [hdk k, mem_keys_mapSet, List.map_cons, List.mem_cons, hkey]
      constructor
      · rintro ((h1 | h1) | h1)
        · exact Or.inr (Or.inl (by rw [h1]))
        · exact Or.inl h1
        · exact Or.inr (Or.inr h1)
      · rintro (h1 | h1 | h1)
        · exact Or.inl (Or.inr h1)
        · exact Or.inl (Or.inl (Option.some.inj h1))
        · exact Or.inr h1
    · intro k p hkp
      rcases hdp k p hkp with ⟨hin, hno⟩ | ⟨l1, e1, l2, hl1, he1, hl2, hp⟩
      · rcases mem_mapSet _ _ _ _ _ hnd hin with ⟨hk, hpv⟩ | ⟨hin', hk⟩
        · right
          refine ⟨[], e, l, rfl, ?_, hno, ?_⟩
          · rw [hkey, hk]
          · rw [hpv, hafter]
        · left
          refine ⟨hin', ?_⟩
          intro e' he'
          rcases List.mem_cons.1 he' with h1 | h1
          · rw [h1, hkey]
            intro hc
            exact hk (Option.some.inj hc).symm
          · exact hno e' h1
      · right
        exact ⟨e :: l1, e1, l2, by rw [hl1]; rfl, he1, hl2, hp⟩


/-! ## Set builtins -/

/-- C1, evaluated on the code: `union(set(1,2), set(2,3))` is the Set with no
members, of length 0, in whatever order the two maps are visited; the claim asks
for the three members 1, 2 and 3. -/
theorem union_set12_set23_is_empty (ord : MapOrder) :
    builtins.union ord [Object.ofElements [Object.ofInt 1, Object.ofInt 2],
        Object.ofElements [Object.ofInt 2, Object.ofInt 3]]
      = .ok (Object.set (some (Set.mk []))) ∧
    builtins.len ord [Object.set (some (Set.mk []))] = .ok (Object.ofInt 0) := by
  constructor
  · exact union_sets_eq_empty ord _ _
  · have h : ord.enum ([] : List (HashKey × HashPair)) = [] := List.Perm.eq_nil (ord.perm [])
    simp [builtins.len, Set.Elements, Set.Data, h, newInteger, Object.ofInt]

/-- C2, evaluated on the code: `push(set(1,2), 3)` is the nil Set pointer, in
whatever order the map is visited; the claim asks for a Set of the three members
1, 2 and 3. -/
theorem push_set12_3_is_nil (ord : MapOrder) :
    builtins.push ord [Object.ofElements [Object.ofInt 1, Object.ofInt 2], Object.ofInt 3]
      = .ok (Object.set none) :=
  push_set_eq_nil ord _ _

/-- C3: on a list of hashable elements `NewSet` returns a Set whose map has, for
keys, exactly the HashKeys of the elements, each once; so it has as many entries
as the list has distinct HashKeys, no two stored members have the same HashKey,
and the entry of a key holds the last element of the list with that key (after
its `HashKey` call, which filled its memo) and no associated value. -/
theorem NewSet_one_entry_per_HashKey (l : List Object)
    (hl : ∀ e ∈ l, e.asHashable.isSome = true) :
    ∃ s : Set, NewSet l = some s ∧
      (∀ k, k ∈ s.Data.map Prod.fst ↔ some k ∈ l.map Object.hashKey?) ∧
      (s.Data.map Prod.fst).Nodup ∧
      s.Data.length = (l.filterMap Object.hashKey?).dedup.length ∧
      (s.Data.map fun kv => kv.2.Key.hashKey?).Nodup ∧
      ∀ k p, (k, p) ∈ s.Data →
        ∃ l1 e l2, l = l1 ++ e :: l2 ∧ e.hashKey? = some k ∧
          (∀ e' ∈ l2, e'.hashKey? ≠ some k) ∧ p = HashPair.mk e.afterHashKey Object.nil := by
  obtain ⟨d, hd, hdn, hdk, hdp⟩ := NewSet_loop_spec l [] hl (by simp)
  have hlast : ∀ k p, (k, p) ∈ d →
      ∃ l1 e l2, l = l1 ++ e :: l2 ∧ e.hashKey? = some k ∧
        (∀ e' ∈ l2, e'.hashKey? ≠ some k) ∧ p = HashPair.mk e.afterHashKey Object.nil := by
    intro k p hkp
    rcases hdp k p hkp with ⟨hin, _⟩ | h
    · simp at hin
    · exact h
  have hkeys : ∀ k, k ∈ d.map Prod.fst ↔ some k ∈ l.map Object.hashKey? := by
    intro k
    rw [hdk k]
    simp
  refine ⟨Set.mk d, by simp [NewSet, hd], hkeys, hdn, ?_, ?_, hlast⟩
  · have hperm : (d.map Prod.fst).Perm (l.filterMap Object.hashKey?).dedup := by
      rw [List.perm_ext_iff_of_nodup hdn (List.nodup_dedup _)]
      intro k
      rw [hkeys k, List.mem_dedup, List.mem_filterMap, List.mem_map]
    have := hperm.length_eq
    simpa [Set.Data] using this
  · have hmap : (d.map fun kv => kv.2.Key.hashKey?) = (d.map Prod.fst).map some := by
      rw [List.map_map]
      apply List.map_congr_left
      rintro ⟨k, p⟩ hkp
      obtain ⟨l1, e, l2, _, he, _, hp⟩ := hlast k p hkp
      simp [hp, HashPair.Key, Object.hashKey?_afterHashKey, he]
    show (d.map fun kv => kv.2.Key.hashKey?).Nodup
    rw [hmap]
    exact hdn.map (Option.some_injective _)

/-- The example of C3: `set(a, b, a)` with `a = 1` and `b = 2` has length 2, and
its members render as `1` and `2`. -/
theorem NewSet_one_entry_per_HashKey_witness :
    (∀ e ∈ [Object.ofInt 1, Object.ofInt 2, Object.ofInt 1], e.asHashable.isSome = true) ∧
    ∃ s : Set, NewSet [Object.ofInt 1, Object.ofInt 2, Object.ofInt 1] = some s ∧
      s.Data.length = 2 ∧
      s.Data.map (fun kv => kv.2.Key.Inspect MapOrder.stored) = [.ok "1", .ok "2"] := by
  have hl : ∀ e ∈ [Object.ofInt 1, Object.ofInt 2, Object.ofInt 1],
      e.asHashable.isSome = true := by
    intro e he
    simp only [List.mem_cons, List.mem_singleton, List.not_mem_nil, or_false] at he
    rcases he with h | h | h <;> subst h <;> rfl
  obtain ⟨s, hs, _, _, hlen, _, _⟩ :=
    NewSet_one_entry_per_HashKey [Object.ofInt 1, Object.ofInt 2, Object.ofInt 1] hl
  refine ⟨hl, s, hs, ?_, ?_⟩
  · rw [hlen]
    decide
  · have hc : NewSet [Object.ofInt 1, Object.ofInt 2, Object.ofInt 1]
        = some (Set.mk [(⟨INTEGER_OBJ, 1⟩, HashPair.mk (Object.ofInt 1).afterHashKey Object.nil),
            (⟨INTEGER_OBJ, 2⟩, HashPair.mk (Object.ofInt 2).afterHashKey Object.nil)]) := rfl
    rw [hc] at hs
    rw [← Option.some.inj hs]
    rfl


/-! ## Structural hashing -/

theorem uint64_injective (v w : int64) (h : uint64 v = uint64 w) : v = w := by
  obtain ⟨a, ha1, ha2⟩ := v
  obtain ⟨b, hb1, hb2⟩ := w
  simp only [uint64] at h
  have : a = b := by omega
  subst this
  rfl

theorem HashKey_eq_imp_Type_eq (x y : Hashable) (hx : x.memoValid) (hy : y.memoValid)
    (h : (x.HashKey).1 = (y.HashKey).1) : x.Type_ = y.Type_ := by
  rw [hx, hy] at h
  cases x <;> cases y <;> first
    | rfl
    | (simp [Hashable.HashKey, Hashable.fresh, Integer.HashKey, Boolean.HashKey,
        String.HashKey, INTEGER_OBJ, BOOLEAN_OBJ, STRING_OBJ] at h)

theorem HashKey_eq_iff_sameContent (x y : Hashable) (hx : x.memoValid) (hy : y.memoValid)
    (hns : x.isString = false ∨ y.isString = false) :
    (x.HashKey).1 = (y.HashKey).1 ↔ x.sameContent y := by
  rw [hx, hy]
  cases x with
  | integer i =>
    cases y with
    | integer j =>
      simp only [Hashable.HashKey, Hashable.fresh, Integer.HashKey, Hashable.sameContent,
        HashKey.mk.injEq, true_and]
      exact ⟨uint64_injective _ _, fun h => by rw [h]⟩
    | boolean b =>
      simp [Hashable.HashKey, Hashable.fresh, Integer.HashKey, Boolean.HashKey,
        Hashable.sameContent, INTEGER_OBJ, BOOLEAN_OBJ]
    | string s =>
      simp [Hashable.HashKey, Hashable.fresh, Integer.HashKey, String.HashKey,
        Hashable.sameContent, INTEGER_OBJ, STRING_OBJ]
  | boolean a =>
    cases y with
    | integer j =>
      simp [Hashable.HashKey, Hashable.fresh, Integer.HashKey, Boolean.HashKey,
        Hashable.sameContent, INTEGER_OBJ, BOOLEAN_OBJ]
    | boolean b =>
      simp only [Hashable.HashKey, Hashable.fresh, Boolean.HashKey, Hashable.sameContent,
        HashKey.mk.injEq, true_and]
      cases a.Value <;> cases b.Value <;> simp
    | string s =>
      simp [Hashable.HashKey, Hashable.fresh, Boolean.HashKey, String.HashKey,
        Hashable.sameContent, BOOLEAN_OBJ, STRING_OBJ]
  | string s =>
    cases y with
    | integer j =>
      simp [Hashable.HashKey, Hashable.fresh, Integer.HashKey, String.HashKey,
        Hashable.sameContent, INTEGER_OBJ, STRING_OBJ]
    | boolean b =>
      simp [Hashable.HashKey, Hashable.fresh, Boolean.HashKey, String.HashKey,
        Hashable.sameContent, BOOLEAN_OBJ, STRING_OBJ]
    | string t => simp [Hashable.isString] at hns

theorem String_HashKey_eq_iff (s t : String) (hs : (Hashable.string s).memoValid)
    (ht : (Hashable.string t).memoValid) :
    ((Hashable.string s).HashKey).1 = ((Hashable.string t).HashKey).1 ↔
      fnv64a (bytes s.Value) = fnv64a (bytes t.Value) := by
  rw [hs, ht]
  simp [Hashable.HashKey, Hashable.fresh, String.HashKey]


/-- C4 as stated fails: the String objects "besy0foath12m" and "euvkeb01t10md"
have the same HashKey (both FNV-1a digests are 6410703883065533760) although
their bytes differ. -/
theorem HashKey_collision_of_distinct_strings :
    ¬ ((collisionA.HashKey).1 = (collisionB.HashKey).1 ↔ collisionA.sameContent collisionB) := by
  intro h
  have hk : (collisionA.HashKey).1 = (collisionB.HashKey).1 := by decide
  have hc : ¬ collisionA.sameContent collisionB := by
    show ¬ (bytes "besy0foath12m" = bytes "euvkeb01t10md")
    decide
  exact hc (h.1 hk)

/-- C4, amended: for hashable values whose memo is empty or was filled by
`HashKey`, the same variant and content give the same HashKey; the same HashKey
gives the same variant and, unless both values are Strings, the same content;
and two Strings have the same HashKey exactly when the FNV-1a digests of their
bytes are equal. -/
theorem HashKey_eq_of_sameContent_and_conversely (x y : Hashable) (hx : x.memoValid)
    (hy : y.memoValid) :
    (x.sameContent y → (x.HashKey).1 = (y.HashKey).1) ∧
    ((x.HashKey).1 = (y.HashKey).1 →
      x.Type_ = y.Type_ ∧ (x.isString = false ∨ y.isString = false → x.sameContent y)) ∧
    ∀ s t, x = Hashable.string s → y = Hashable.string t →
      ((x.HashKey).1 = (y.HashKey).1 ↔ fnv64a (bytes s.Value) = fnv64a (bytes t.Value)) := by
  refine ⟨?_, ?_, ?_⟩
  · intro hc
    by_cases hns : x.isString = false ∨ y.isString = false
    · exact (HashKey_eq_iff_sameContent x y hx hy hns).2 hc
    · cases x with
      | string s =>
        cases y with
        | string t =>
          rw [String_HashKey_eq_iff s t hx hy]
          simp only [Hashable.sameContent] at hc
          rw [hc]
        | integer j => simp [Hashable.isString] at hns
        | boolean b => simp [Hashable.isString] at hns
      | integer i => simp [Hashable.isString] at hns
      | boolean a => simp [Hashable.isString] at hns
  · intro hk
    exact ⟨HashKey_eq_imp_Type_eq x y hx hy hk,
      fun hns => (HashKey_eq_iff_sameContent x y hx hy hns).1 hk⟩
  · intro s t hs ht
    subst hs
    subst ht
    exact String_HashKey_eq_iff s t hx hy

/-- The amended C4 at the Strings "a" and "a", the second with its memo filled. -/
theorem HashKey_eq_of_sameContent_and_conversely_witness :
    (Hashable.string ⟨"a", none⟩).memoValid ∧
    ((Hashable.string ⟨"a", none⟩).HashKey).2.memoValid ∧
    ((Hashable.string ⟨"a", none⟩).HashKey).1
      = ((((Hashable.string ⟨"a", none⟩).HashKey).2).HashKey).1 :=
  ⟨rfl, rfl,
    (HashKey_eq_of_sameContent_and_conversely (Hashable.string ⟨"a", none⟩)
      ((Hashable.string ⟨"a", none⟩).HashKey).2 rfl rfl).1 rfl⟩

/-- C5: for hashable values that are not both Strings (memo empty or filled by
`HashKey`), the HashKeys are equal exactly when the values have the same variant
and the same value; the type tag of the key is that of the value, so keys of
different variants differ; the key value of an Integer is its `int64` modulo
2^64, which is injective on `int64`; the key value of a Boolean is 1 for true
and 0 for false. -/
theorem HashKey_eq_iff_of_not_both_strings (x y : Hashable) (hx : x.memoValid)
    (hy : y.memoValid) (hns : x.isString = false ∨ y.isString = false) :
    ((x.HashKey).1 = (y.HashKey).1 ↔ x.sameContent y) ∧
    (x.HashKey).1.Type_ = x.Type_ ∧
    (x.Type_ ≠ y.Type_ → (x.HashKey).1 ≠ (y.HashKey).1) ∧
    (∀ i, x = Hashable.integer i →
      (x.HashKey).1.Value = (i.Value.val % 18446744073709551616).toNat) ∧
    (∀ v w : int64, (v.val % 18446744073709551616).toNat
      = (w.val % 18446744073709551616).toNat → v = w) ∧
    (∀ b, x = Hashable.boolean b → (x.HashKey).1.Value = if b.Value = true then 1 else 0) := by
  refine ⟨HashKey_eq_iff_sameContent x y hx hy hns, ?_,
    fun hne hk => hne (HashKey_eq_imp_Type_eq x y hx hy hk), ?_, uint64_injective, ?_⟩
  · rw [hx]
    cases x <;> rfl
  · intro i hi
    rw [hx, hi]
    rfl
  · intro b hb
    rw [hx, hb]
    rfl

/-- C5 at the Integer -1 against the Boolean true: the keys differ, and the key
value of -1 is 2^64 - 1. -/
theorem HashKey_eq_iff_of_not_both_strings_witness :
    (Hashable.integer ⟨int64.ofInt (-1), none⟩).memoValid ∧
    (Hashable.boolean ⟨true, none⟩).memoValid ∧
    ((Hashable.integer ⟨int64.ofInt (-1), none⟩).HashKey).1
      ≠ ((Hashable.boolean ⟨true, none⟩).HashKey).1 ∧
    ((Hashable.integer ⟨int64.ofInt (-1), none⟩).HashKey).1.Value = 18446744073709551615 :=
  ⟨rfl, rfl,
    (HashKey_eq_iff_of_not_both_strings (Hashable.integer ⟨int64.ofInt (-1), none⟩)
      (Hashable.boolean ⟨true, none⟩) rfl rfl (Or.inl rfl)).2.2.1 (by decide),
    ((HashKey_eq_iff_of_not_both_strings (Hashable.integer ⟨int64.ofInt (-1), none⟩)
      (Hashable.boolean ⟨true, none⟩) rfl rfl (Or.inl rfl)).2.2.2.1 _ rfl).trans (by decide)⟩


/-! ## Error messages -/

theorem wrongNumberOfArguments_one (n : Nat) :
    "wrong number of arguments. got=" ++ toString n ++ ", want=1" = wrongNumberOfArguments n 1 := by
  have h : ", want=" ++ toString 1 = ", want=1" := by decide
  rw [wrongNumberOfArguments, String.append_assoc _ ", want=", h]

theorem wrongNumberOfArguments_two (n : Nat) :
    "wrong number of arguments. got=" ++ toString n ++ ", want=2" = wrongNumberOfArguments n 2 := by
  have h : ", want=" ++ toString 2 = ", want=2" := by decide
  rw [wrongNumberOfArguments, String.append_assoc _ ", want=", h]

theorem argumentMustBe_ARRAY (name t : GoString) :
    argumentMustBe name "ARRAY" t = "argument to `" ++ (name ++ "` must be ARRAY, got ") ++ t := by
  have h : "` must be " ++ ("ARRAY" ++ ", got ") = "` must be ARRAY, got " := by decide
  simp only [argumentMustBe, String.append_assoc]
  rw [← String.append_assoc "ARRAY", ← String.append_assoc "` must be ", h]

theorem len_arity (ord : MapOrder) (args : List Object) (h : args.length ≠ 1) :
    builtins.len ord args = .ok (newError (wrongNumberOfArguments args.length 1)) := by
  rw [← wrongNumberOfArguments_one]
  match args, h with
  | [], _ => rfl
  | _ :: _ :: _, _ => rfl
  | [a], h => exact absurd rfl h

theorem first_arity (args : List Object) (h : args.length ≠ 1) :
    builtins.first args = .ok (newError (wrongNumberOfArguments args.length 1)) := by
  rw [← wrongNumberOfArguments_one]
  match args, h with
  | [], _ => rfl
  | _ :: _ :: _, _ => rfl
  | [a], h => exact absurd rfl h

theorem last_arity (args : List Object) (h : args.length ≠ 1) :
    builtins.last args = .ok (newError (wrongNumberOfArguments args.length 1)) := by
  rw [← wrongNumberOfArguments_one]
  match args, h with
  | [], _ => rfl
  | _ :: _ :: _, _ => rfl
  | [a], h => exact absurd rfl h

theorem rest_arity (args : List Object) (h : args.length ≠ 1) :
    builtins.rest args = .ok (newError (wrongNumberOfArguments args.length 1)) := by
  rw [← wrongNumberOfArguments_one]
  match args, h with
  | [], _ => rfl
  | _ :: _ :: _, _ => rfl
  | [a], h => exact absurd rfl h

theorem push_arity (ord : MapOrder) (args : List Object) (h : args.length ≠ 2) :
    builtins.push ord args = .ok (newError (wrongNumberOfArguments args.length 2)) := by
  rw [← wrongNumberOfArguments_two]
  match args, h with
  | [], _ => rfl
  | [_], _ => rfl
  | _ :: _ :: _ :: _, _ => rfl
  | [a, b], h => exact absurd rfl h

theorem union_arity (ord : MapOrder) (args : List Object) (h : args.length ≠ 2) :
    builtins.union ord args
      = .ok (newError ("wrong number of arguments, got=" ++ toString args.length ++ ", want=2")) := by
  match args, h with
  | [], _ => rfl
  | [_], _ => rfl
  | _ :: _ :: _ :: _, _ => rfl
  | [a, b], h => exact absurd rfl h

theorem first_type (arg : Object) (t : ObjectType) (ht : arg.Type_ = .ok t) (h : t ≠ ARRAY_OBJ) :
    builtins.first [arg] = .ok (newError (argumentMustBe "first" "ARRAY" t)) := by
  rw [argumentMustBe_ARRAY]
  simp only [builtins.first, ht, h, ne_eq, not_false_eq_true, if_true]
  rfl

theorem last_type (arg : Object) (t : ObjectType) (ht : arg.Type_ = .ok t) (h : t ≠ ARRAY_OBJ) :
    builtins.last [arg] = .ok (newError (argumentMustBe "last" "ARRAY" t)) := by
  rw [argumentMustBe_ARRAY]
  simp only [builtins.last, ht, h, ne_eq, not_false_eq_true, if_true]
  rfl

theorem rest_type (arg : Object) (t : ObjectType) (ht : arg.Type_ = .ok t) (h : t ≠ ARRAY_OBJ) :
    builtins.rest [arg] = .ok (newError (argumentMustBe "rest" "ARRAY" t)) := by
  rw [argumentMustBe_ARRAY]
  simp only [builtins.rest, ht, h, ne_eq, not_false_eq_true, if_true]
  rfl

theorem push_type (ord : MapOrder) (arg0 arg1 : Object) (t : ObjectType)
    (ht : arg0.Type_ = .ok t) (h1 : t ≠ ARRAY_OBJ) (h2 : t ≠ SET_OBJ) :
    builtins.push ord [arg0, arg1] = .ok (newError (argumentMustBe "push" "ARRAY or SET" t)) := by
  have h : "` must be " ++ ("ARRAY or SET" ++ ", got ") = "` must be ARRAY or SET, got " := by
    decide
  have e : argumentMustBe "push" "ARRAY or SET" t
      = "argument to `" ++ ("push" ++ "` must be ARRAY or SET, got ") ++ t := by
    simp only [argumentMustBe, String.append_assoc]
    rw [← String.append_assoc "ARRAY or SET", ← String.append_assoc "` must be ", h]
  rw [e]
  simp only [builtins.push, ht, h1, h2, ne_eq, not_false_eq_true, and_self, if_true]
  rfl

theorem len_type (ord : MapOrder) (arg : Object) (t : ObjectType) (ht : arg.Type_ = .ok t)
    (h1 : t ≠ STRING_OBJ) (h2 : t ≠ ARRAY_OBJ) (h3 : t ≠ HASH_OBJ) (h4 : t ≠ SET_OBJ) :
    builtins.len ord [arg] = .ok (newError (argumentNotSupported "len" t)) := by
  have e : argumentNotSupported "len" t = "argument to `len` not supported, got " ++ t := by
    have h : "argument to `" ++ "len" ++ "` not supported, got "
        = "argument to `len` not supported, got " := by decide
    rw [argumentNotSupported, h]
  rw [e]
  cases arg <;> simp only [Object.Type_, Except.ok.injEq, reduceCtorEq] at ht <;>
    first
      | (subst ht; rfl)
      | (exfalso; first | exact h1 ht.symm | exact h2 ht.symm | exact h3 ht.symm | exact h4 ht.symm)

theorem union_type (ord : MapOrder) (arg0 arg1 : Object) (t0 t1 : ObjectType)
    (ht0 : arg0.Type_ = .ok t0) (ht1 : arg1.Type_ = .ok t1) (h : t0 ≠ SET_OBJ ∨ t1 ≠ SET_OBJ) :
    builtins.union ord [arg0, arg1]
      = .ok (newError ("arguments to `union` must both be sets, union(" ++ t0 ++ ", " ++ t1
          ++ ")")) := by
  simp only [builtins.union, ht0, ht1, h, if_true]


/-- C6, evaluated on the code: `push(set(1), 2)` returns the nil Set pointer, a
value returned by a builtin, and `len` and `puts` called on that value fault
with a nil dereference instead of returning a value. -/
theorem len_of_pushed_set_faults (ord : MapOrder) :
    builtins.push ord [Object.ofElements [Object.ofInt 1], Object.ofInt 2]
      = .ok (Object.set none) ∧
    (builtins "len").map (fun f => f ord [Object.set none])
      = some ("", .error Panic.nilDereference) ∧
    (builtins "puts").map (fun f => f ord [Object.set none])
      = some ("", .error Panic.nilDereference) :=
  ⟨push_set_eq_nil ord _ _, rfl, rfl⟩

/-- The arity message of `union`: called with one argument it returns an Error
whose message has a comma after "arguments", where the template and the five
other builtins have a full stop. -/
theorem union_arity_message_is_not_the_template :
    builtins.union MapOrder.stored [Object.ofInt 1]
      = .ok (Object.error "wrong number of arguments, got=1, want=2") ∧
    builtins.union MapOrder.stored [Object.ofInt 1]
      ≠ .ok (newError (wrongNumberOfArguments 1 2)) := by
  refine ⟨rfl, ?_⟩
  intro h
  have h1 : builtins.union MapOrder.stored [Object.ofInt 1]
      = .ok (Object.error "wrong number of arguments, got=1, want=2") := rfl
  rw [h1] at h
  simp only [newError, Except.ok.injEq, Object.error.injEq] at h
  exact absurd h (by decide)

theorem template_data_at_8 (rest : GoString) :
    ("argument to `" ++ rest).data[8]? = some ' ' := by
  rw [String.data_append]
  rfl

/-- C7 as stated fails: `union(1, 2)` has the right number of arguments and two
arguments of a type it does not accept, and the Error it returns,
"arguments to `union` must both be sets, union(INTEGER, INTEGER)", is an
instance of neither the "must be" nor the "not supported" template, whatever
the name, the expected and the actual type put into them. -/
theorem union_type_message_is_no_template :
    builtins.union MapOrder.stored [Object.ofInt 1, Object.ofInt 2]
      = .ok (Object.error "arguments to `union` must both be sets, union(INTEGER, INTEGER)") ∧
    (∀ name expected actual : GoString,
      builtins.union MapOrder.stored [Object.ofInt 1, Object.ofInt 2]
        ≠ .ok (newError (argumentMustBe name expected actual))) ∧
    (∀ name actual : GoString,
      builtins.union MapOrder.stored [Object.ofInt 1, Object.ofInt 2]
        ≠ .ok (newError (argumentNotSupported name actual))) := by
  have h1 : builtins.union MapOrder.stored [Object.ofInt 1, Object.ofInt 2]
      = .ok (Object.error "arguments to `union` must both be sets, union(INTEGER, INTEGER)") :=
    rfl
  have h8 : ("arguments to `union` must both be sets, union(INTEGER, INTEGER)" : GoString).data[8]?
      = some 's' := rfl
  refine ⟨h1, ?_, ?_⟩
  · intro name expected actual h
    rw [h1] at h
    simp only [newError, Except.ok.injEq, Object.error.injEq, argumentMustBe,
      String.append_assoc] at h
    rw [h, template_data_at_8] at h8
    exact absurd h8 (by decide)
  · intro name actual h
    rw [h1] at h
    simp only [newError, Except.ok.injEq, Object.error.injEq, argumentNotSupported,
      String.append_assoc] at h
    rw [h, template_data_at_8] at h8
    exact absurd h8 (by decide)

/-- C7, amended: `len`, `first`, `last`, `rest` (arity 1) and `push` (arity 2)
answer a call of another length, whatever the arguments, with the Error
"wrong number of arguments. got=n, want=k", and `union` answers a call of a
length other than 2 with an Error; with the right number of arguments, `first`,
`last` and `rest` answer a first argument that is not an ARRAY, and `push` one
that is neither ARRAY nor SET, with the "must be" template, `len` answers an
argument that is not STRING, ARRAY, HASH or SET with the "not supported"
template, and `union` answers two arguments that are not both SET with
"arguments to `union` must both be sets, union(t0, t1)". -/
theorem builtin_error_messages (ord : MapOrder) (args : List Object) :
    (args.length ≠ 1 →
      builtins.len ord args = .ok (newError (wrongNumberOfArguments args.length 1)) ∧
      builtins.first args = .ok (newError (wrongNumberOfArguments args.length 1)) ∧
      builtins.last args = .ok (newError (wrongNumberOfArguments args.length 1)) ∧
      builtins.rest args = .ok (newError (wrongNumberOfArguments args.length 1))) ∧
    (args.length ≠ 2 →
      builtins.push ord args = .ok (newError (wrongNumberOfArguments args.length 2)) ∧
      ∃ message, builtins.union ord args = .ok (Object.error message)) ∧
    (∀ arg t, args = [arg] → arg.Type_ = .ok t →
      (t ≠ ARRAY_OBJ →
        builtins.first args = .ok (newError (argumentMustBe "first" "ARRAY" t)) ∧
        builtins.last args = .ok (newError (argumentMustBe "last" "ARRAY" t)) ∧
        builtins.rest args = .ok (newError (argumentMustBe "rest" "ARRAY" t))) ∧
      (t ≠ STRING_OBJ → t ≠ ARRAY_OBJ → t ≠ HASH_OBJ → t ≠ SET_OBJ →
        builtins.len ord args = .ok (newError (argumentNotSupported "len" t)))) ∧
    (∀ arg0 arg1 t0 t1, args = [arg0, arg1] → arg0.Type_ = .ok t0 → arg1.Type_ = .ok t1 →
      (t0 ≠ ARRAY_OBJ → t0 ≠ SET_OBJ →
        builtins.push ord args = .ok (newError (argumentMustBe "push" "ARRAY or SET" t0))) ∧
      (t0 ≠ SET_OBJ ∨ t1 ≠ SET_OBJ →
        builtins.union ord args = .ok (newError
          ("arguments to `union` must both be sets, union(" ++ t0 ++ ", " ++ t1 ++ ")")))) := by
  refine ⟨fun h => ⟨len_arity ord args h, first_arity args h, last_arity args h,
      rest_arity args h⟩,
    fun h => ⟨push_arity ord args h, _, union_arity ord args h⟩, ?_, ?_⟩
  · intro arg t hargs ht
    subst hargs
    exact ⟨fun h => ⟨first_type arg t ht h, last_type arg t ht h, rest_type arg t ht h⟩,
      len_type ord arg t ht⟩
  · intro arg0 arg1 t0 t1 hargs ht0 ht1
    subst hargs
    exact ⟨push_type ord arg0 arg1 t0 ht0, union_type ord arg0 arg1 t0 t1 ht0 ht1⟩

/-- The amended C7 at `first(1, 2)`, `push()`, `len(1)` and `push(1, 2)`. -/
theorem builtin_error_messages_witness :
    builtins.first [Object.ofInt 1, Object.ofInt 2]
      = .ok (Object.error "wrong number of arguments. got=2, want=1") ∧
    builtins.push MapOrder.stored []
      = .ok (Object.error "wrong number of arguments. got=0, want=2") ∧
    builtins.len MapOrder.stored [Object.ofInt 1]
      = .ok (Object.error "argument to `len` not supported, got INTEGER") ∧
    builtins.push MapOrder.stored [Object.ofInt 1, Object.ofInt 2]
      = .ok (Object.error "argument to `push` must be ARRAY or SET, got INTEGER") :=
  ⟨((builtin_error_messages MapOrder.stored [Object.ofInt 1, Object.ofInt 2]).1
      (by decide)).2.1,
    ((builtin_error_messages MapOrder.stored []).2.1 (by decide)).1,
    ((builtin_error_messages MapOrder.stored [Object.ofInt 1]).2.2.1 (Object.ofInt 1)
      INTEGER_OBJ rfl rfl).2 (by decide) (by decide) (by decide) (by decide),
    ((builtin_error_messages MapOrder.stored [Object.ofInt 1, Object.ofInt 2]).2.2.2
      (Object.ofInt 1) (Object.ofInt 2) INTEGER_OBJ INTEGER_OBJ rfl rfl rfl).1
      (by decide) (by decide)⟩

theorem NewSet_loop_eq_none_iff (l : List Object) (pairs : List (HashKey × HashPair)) :
    NewSet.loop pairs l = none ↔ ∃ e ∈ l, e.asHashable = none := by
  induction l generalizing pairs with
  | nil => simp [NewSet.loop]
  | cons e l ih =>
    cases he : e.asHashable with
    | none =>
      simp only [NewSet.loop, he, true_iff]
      exact ⟨e, List.mem_cons_self e l, he⟩
    | some h =>
      simp only [NewSet.loop, he, ih, List.mem_cons, exists_eq_or_imp, reduceCtorEq,
        false_or]

/-- C8: `NewSet` returns the nil pointer exactly when some element is not
hashable, that is, has no type tag INTEGER, BOOLEAN or STRING (the nil interface
value included); otherwise it returns a Set; what it returns is never an Error
value. -/
theorem NewSet_eq_nil_iff (l : List Object) :
    (NewSet l = none ↔ ∃ e ∈ l, e.asHashable = none) ∧
    ((¬ ∃ e ∈ l, e.asHashable = none) ↔ ∃ s : Set, NewSet l = some s) ∧
    (∀ e : Object, e.asHashable = none ↔
      ∀ t, e.Type_ = .ok t → t ≠ INTEGER_OBJ ∧ t ≠ BOOLEAN_OBJ ∧ t ≠ STRING_OBJ) ∧
    ∀ message, Object.set (NewSet l) ≠ Object.error message := by
  have h1 : NewSet l = none ↔ ∃ e ∈ l, e.asHashable = none := by
    rw [← NewSet_loop_eq_none_iff l []]
    simp [NewSet]
  refine ⟨h1, ?_, ?_, ?_⟩
  · rw [← h1]
    cases NewSet l <;> simp
  · intro e
    cases e <;>
      simp [Object.asHashable, Object.Type_, INTEGER_OBJ, BOOLEAN_OBJ, STRING_OBJ, NULL_OBJ,
        RETURN_VALUE_OBJ, ERROR_OBJ, FUNCTION_OBJ, BUILTIN_OBJ, ARRAY_OBJ, HASH_OBJ, SET_OBJ]
  · intro message h
    cases h


/-! ## Array builtins -/

theorem set_append_singleton {α : Type} (l : List α) (a b : α) :
    (l ++ [a]).set l.length b = l ++ [b] := by
  induction l with
  | nil => rfl
  | cons x l ih => simp [ih]

/-- C9: on an Array `a` and any value `v`, `push` returns a new Array whose
elements are those of `a`, in order, followed by `v`, so it has one element
more. The builtin writes into the slice it has made only, so `a` keeps its
elements. `push([1,2], 3)` renders as
`[1,2,3]`. -/
theorem push_array_appends (ord : MapOrder) (es : List Object) (v : Object) :
    builtins.push ord [Object.array es, v] = .ok (Object.array (es ++ [v])) ∧
    (es ++ [v]).length = es.length + 1 ∧
    (es ++ [v]).take es.length = es ∧
    (es ++ [v])[es.length]? = some v ∧
    ∃ r, builtins.push ord [Object.array [Object.ofInt 1, Object.ofInt 2], Object.ofInt 3]
        = .ok r ∧ r.Inspect ord = .ok "[1,2,3]" := by
  have h : ∀ (l : List Object) (w : Object),
      builtins.push ord [Object.array l, w] = .ok (Object.array (l ++ [w])) := by
    intro l w
    simp only [builtins.push, Object.Type_, copy_replicate_succ Object.nil l l.length rfl,
      set_append_singleton]
    simp [ARRAY_OBJ]
  exact ⟨h es v, by simp, by simp, by simp, _, h _ _, rfl⟩

/-- C10: on an Array `a`, `rest` returns Null when `a` is empty and otherwise a
new Array of the elements of `a` from index 1 on, in order, one element shorter;
so `rest` of a one-element Array is the empty Array. The builtin writes into the
slice it has made only, so `a` keeps its elements. `rest([1,2,3])` renders as
`[2,3]`. -/
theorem rest_array_drops_first (ord : MapOrder) (es : List Object) (e : Object) :
    builtins.rest [Object.array []] = .ok NULL ∧
    builtins.rest [Object.array (e :: es)] = .ok (Object.array es) ∧
    es.length = (e :: es).length - 1 ∧
    (∀ i, es[i]? = (e :: es)[i + 1]?) ∧
    builtins.rest [Object.array [e]] = .ok (Object.array []) ∧
    ∃ r, builtins.rest [Object.array [Object.ofInt 1, Object.ofInt 2, Object.ofInt 3]] = .ok r ∧
      r.Inspect ord = .ok "[2,3]" := by
  have h : ∀ (x : Object) (l : List Object),
      builtins.rest [Object.array (x :: l)] = .ok (Object.array l) := by
    intro x l
    have hc := copy_replicate_same Object.nil l l.length rfl
    simp only [builtins.rest, Object.Type_, List.length_cons, List.take_length,
      List.drop_succ_cons, List.drop_zero, Nat.add_sub_cancel, hc]
    simp [ARRAY_OBJ, hc]
  exact ⟨rfl, h e es, by simp, fun i => by simp, h e [], _, h _ _, rfl⟩


theorem length_enum (ord : MapOrder) {α : Type} (l : List α) : (ord.enum l).length = l.length :=
  (ord.perm l).length_eq

theorem len_set (ord : MapOrder) (s : Set) :
    builtins.len ord [Object.set (some s)] = .ok (newInteger s.Data.length) := by
  simp [builtins.len, Set.Elements, length_enum]

theorem int64_ofInt_of_lt (n : Nat) (h : n < 9223372036854775808) :
    (int64.ofInt n).val = n := by
  simp only [int64.ofInt]
  omega

/-- C11: `first` of an empty Array is Null and of a non-empty one its element at
index 0; `last` of an empty Array is Null and of a non-empty one its element at
index `len-1`. So `first([1,2])` is 1 and `last([1,2])` is 2. -/
theorem first_and_last_of_array (es : List Object) (e : Object) :
    builtins.first [Object.array []] = .ok NULL ∧
    builtins.first [Object.array (e :: es)] = .ok e ∧
    (e :: es)[0]? = some e ∧
    builtins.last [Object.array []] = .ok NULL ∧
    builtins.last [Object.array (es ++ [e])] = .ok e ∧
    (es ++ [e])[(es ++ [e]).length - 1]? = some e ∧
    builtins.first [Object.array [Object.ofInt 1, Object.ofInt 2]] = .ok (Object.ofInt 1) ∧
    builtins.last [Object.array [Object.ofInt 1, Object.ofInt 2]] = .ok (Object.ofInt 2) := by
  have hidx : (es ++ [e])[(es ++ [e]).length - 1]? = some e := by simp
  refine ⟨rfl, ?_, by simp, rfl, ?_, hidx, rfl, rfl⟩
  · simp [builtins.first, Object.Type_]
  · simp only [builtins.last, Object.Type_, hidx]
    simp

/-- C12: `len` of one argument returns the Integer `int64(n)` where `n` is the
number of elements of an Array, of pairs of a Hash, of members of a Set (the
entries of its map, one per distinct HashKey); `int64(n)` is `n` below 2^63;
an argument with a type tag other than STRING, ARRAY, HASH and SET gets an
Error. `len([1,2,3])` is 3, `len(set(1,2,2))` is 2 and `len(42)` is an Error. -/
theorem len_counts_elements (ord : MapOrder) (es : List Object)
    (ps : List (HashKey × HashPair)) (s : Set) (hs : (s.Data.map Prod.fst).Nodup) :
    builtins.len ord [Object.array es] = .ok (newInteger es.length) ∧
    builtins.len ord [Object.hash ps] = .ok (newInteger ps.length) ∧
    builtins.len ord [Object.set (some s)]
      = .ok (newInteger (s.Data.map Prod.fst).dedup.length) ∧
    (∀ n : Nat, n < 9223372036854775808 →
      newInteger n = Object.integer ⟨int64.ofInt n, none⟩ ∧ (int64.ofInt n).val = n) ∧
    (∀ arg t, arg.Type_ = .ok t → t ≠ STRING_OBJ → t ≠ ARRAY_OBJ → t ≠ HASH_OBJ →
      t ≠ SET_OBJ → ∃ message, builtins.len ord [arg] = .ok (Object.error message)) ∧
    builtins.len ord [Object.array [Object.ofInt 1, Object.ofInt 2, Object.ofInt 3]]
      = .ok (Object.ofInt 3) ∧
    builtins.len ord [Object.ofElements [Object.ofInt 1, Object.ofInt 2, Object.ofInt 2]]
      = .ok (Object.ofInt 2) ∧
    builtins.len ord [Object.ofInt 42]
      = .ok (Object.error "argument to `len` not supported, got INTEGER") := by
  refine ⟨rfl, rfl, ?_, fun n hn => ⟨rfl, int64_ofInt_of_lt n hn⟩, ?_, rfl, ?_, rfl⟩
  · rw [len_set, List.Nodup.dedup hs, List.length_map]
  · intro arg t ht h1 h2 h3 h4
    exact ⟨_, len_type ord arg t ht h1 h2 h3 h4⟩
  · have hc : Object.ofElements [Object.ofInt 1, Object.ofInt 2, Object.ofInt 2]
        = Object.set (some (Set.mk
            [(⟨INTEGER_OBJ, 1⟩, HashPair.mk (Object.ofInt 1).afterHashKey Object.nil),
             (⟨INTEGER_OBJ, 2⟩, HashPair.mk (Object.ofInt 2).afterHashKey Object.nil)])) := rfl
    rw [hc, len_set]
    rfl

/-- C12 at a Set whose map has the two keys of the Integers 1 and 2. -/
theorem len_counts_elements_witness :
    ((Set.mk [(⟨INTEGER_OBJ, 1⟩, HashPair.mk (Object.ofInt 1).afterHashKey Object.nil),
        (⟨INTEGER_OBJ, 2⟩, HashPair.mk (Object.ofInt 2).afterHashKey Object.nil)]).Data.map
      Prod.fst).Nodup ∧
    builtins.len MapOrder.stored
      [Object.set (some (Set.mk
        [(⟨INTEGER_OBJ, 1⟩, HashPair.mk (Object.ofInt 1).afterHashKey Object.nil),
         (⟨INTEGER_OBJ, 2⟩, HashPair.mk (Object.ofInt 2).afterHashKey Object.nil)]))]
      = .ok (Object.ofInt 2) :=
  ⟨by decide,
    (len_counts_elements MapOrder.stored [] [] _ (by decide)).2.2.1.trans rfl⟩


/-! ## Strings -/

theorem length_bytes_data (cs : List Char) :
    ((cs.flatMap String.utf8EncodeChar).map UInt8.toNat).length
      = (cs.map Char.utf8Size).sum := by
  induction cs with
  | nil => rfl
  | cons c cs ih =>
    simp only [List.length_map] at ih
    simp [ih]

theorem length_le_sum_utf8Size (cs : List Char) : cs.length ≤ (cs.map Char.utf8Size).sum := by
  induction cs with
  | nil => simp
  | cons c cs ih =>
    have h := Char.utf8Size_eq c
    simp only [List.length_cons, List.map_cons, List.sum_cons]
    omega

theorem sum_utf8Size_of_ascii (cs : List Char) (h : ∀ c ∈ cs, c.val ≤ 127) :
    (cs.map Char.utf8Size).sum = cs.length := by
  induction cs with
  | nil => simp
  | cons c cs ih =>
    have hc : c.utf8Size = 1 := by simp [Char.utf8Size, h c (List.mem_cons_self c cs)]
    simp only [List.length_cons, List.map_cons, List.sum_cons, hc,
      ih fun c' hc' => h c' (List.mem_cons_of_mem c hc')]
    omega

/-- C13 as stated fails: the String "é" has one character and `len` returns the
Integer 2, the number of bytes of its UTF-8 encoding. -/
theorem len_of_multibyte_string_is_not_its_characters :
    ("é" : GoString).length = 1 ∧
    builtins.len MapOrder.stored [Object.ofString "é"] = .ok (Object.ofInt 2) ∧
    builtins.len MapOrder.stored [Object.ofString "é"]
      ≠ .ok (newInteger ("é" : GoString).length) := by
  refine ⟨by decide, rfl, ?_⟩
  intro h
  have h1 : builtins.len MapOrder.stored [Object.ofString "é"] = .ok (Object.ofInt 2) := rfl
  rw [h1] at h
  simp only [Object.ofInt, newInteger, Except.ok.injEq, Object.integer.injEq,
    Integer.mk.injEq, and_true] at h
  exact absurd h (by decide)

/-- C13, amended: `len` of a String returns the Integer `int64(n)` where `n` is
the number of bytes of its UTF-8 encoding; that number is at least the number of
characters and equals it when every character is ASCII. -/
theorem len_of_string_counts_bytes (ord : MapOrder) (s : String) :
    builtins.len ord [Object.string s] = .ok (newInteger (bytes s.Value).length) ∧
    (bytes s.Value).length = s.Value.utf8ByteSize ∧
    s.Value.length ≤ (bytes s.Value).length ∧
    ((∀ c ∈ s.Value.data, c.val ≤ 127) → (bytes s.Value).length = s.Value.length) := by
  refine ⟨rfl, ?_, ?_, ?_⟩
  · obtain ⟨v, m⟩ := s
    obtain ⟨cs⟩ := v
    show ((cs.flatMap String.utf8EncodeChar).map UInt8.toNat).length
      = String.utf8ByteSize ⟨cs⟩
    rw [length_bytes_data]
    induction cs with
    | nil => rfl
    | cons c cs ih =>
      simp only [List.map_cons, List.sum_cons, ih, String.utf8ByteSize,
        String.utf8ByteSize.go]
      omega
  · show s.Value.data.length ≤ ((s.Value.data.flatMap String.utf8EncodeChar).map _).length
    rw [length_bytes_data]
    exact length_le_sum_utf8Size _
  · intro h
    show ((s.Value.data.flatMap String.utf8EncodeChar).map _).length = s.Value.data.length
    rw [length_bytes_data]
    exact sum_utf8Size_of_ascii _ h

/-- The amended C13 at the ASCII text "hello": five bytes, five characters. -/
theorem len_of_string_counts_bytes_witness :
    (∀ c ∈ ("hello" : GoString).data, c.val ≤ 127) ∧
    (bytes "hello").length = ("hello" : GoString).length :=
  ⟨by decide, (len_of_string_counts_bytes MapOrder.stored ⟨"hello", none⟩).2.2.2 (by decide)⟩

/-- C14 as stated fails: `len("hello")` is not the Integer 4. -/
theorem len_hello_is_not_4 :
    builtins.len MapOrder.stored [Object.ofString "hello"] ≠ .ok (Object.ofInt 4) := by
  intro h
  have h1 : builtins.len MapOrder.stored [Object.ofString "hello"] = .ok (Object.ofInt 5) := rfl
  rw [h1] at h
  simp only [Object.ofInt, Except.ok.injEq, Object.integer.injEq, Integer.mk.injEq,
    and_true] at h
  exact absurd h (by decide)

/-- C14, amended: `len("hello")` is the Integer 5, the number of bytes of
"hello". -/
theorem len_hello_is_5 (ord : MapOrder) :
    builtins.len ord [Object.ofString "hello"] = .ok (Object.ofInt 5) ∧
    (bytes "hello").length = 5 :=
  ⟨rfl, rfl⟩


/-! ## Rendering and output -/

theorem inspectElements_of_map (ord : MapOrder) (es : List Object) (texts : List GoString)
    (h : es.map (fun e => e.Inspect ord) = texts.map Except.ok) :
    Object.inspectElements ord es = .ok texts := by
  induction es generalizing texts with
  | nil =>
    cases texts with
    | nil => rfl
    | cons t ts => simp at h
  | cons e es ih =>
    cases texts with
    | nil => simp at h
    | cons t ts =>
      simp only [List.map_cons, List.cons.injEq] at h
      simp only [Object.inspectElements, h.1, ih ts h.2]

theorem puts_of_map (ord : MapOrder) (args : List Object) (texts : List GoString)
    (h : args.map (fun e => e.Inspect ord) = texts.map Except.ok) :
    builtins.puts ord args = (linesOf texts, .ok NULL) := by
  induction args generalizing texts with
  | nil =>
    cases texts with
    | nil => rfl
    | cons t ts => simp at h
  | cons e es ih =>
    cases texts with
    | nil => simp at h
    | cons t ts =>
      simp only [List.map_cons, List.cons.injEq] at h
      simp only [builtins.puts, h.1, ih ts h.2, linesOf]

theorem Inspect_integer (ord : MapOrder) (i : Integer) :
    (Object.integer i).Inspect ord = .ok (decimal i.Value.val) := by
  obtain ⟨⟨v, h1, h2⟩, m⟩ := i
  cases v with
  | ofNat n =>
    have h0 : (0 : Int) ≤ Int.ofNat n := Int.ofNat_nonneg n
    simp only [Object.Inspect, decimal, h0, if_true]
    rfl
  | negSucc n =>
    have h0 : ¬ (0 : Int) ≤ Int.negSucc n := by
      intro hc
      exact absurd (Int.negSucc_lt_zero n) (not_lt.2 hc)
    simp only [Object.Inspect, decimal, h0, if_false]
    rfl

mutual
theorem Object.Inspect_ok (ord : MapOrder) :
    ∀ o : Object, o.isValue = true → ∃ t, o.Inspect ord = .ok t
  | .nil, h => by simp [Object.isValue] at h
  | .integer _, _ => ⟨_, rfl⟩
  | .boolean _, _ => ⟨_, rfl⟩
  | .null, _ => ⟨_, rfl⟩
  | .returnValue v, h => by
    simp only [Object.isValue] at h
    obtain ⟨t, ht⟩ := Object.Inspect_ok ord v h
    exact ⟨t, by simp only [Object.Inspect, ht]⟩
  | .error _, _ => ⟨_, rfl⟩
  | .function _ _, _ => ⟨_, rfl⟩
  | .string _, _ => ⟨_, rfl⟩
  | .builtin _, _ => ⟨_, rfl⟩
  | .array es, h => by
    simp only [Object.isValue] at h
    obtain ⟨ts, hts⟩ := Object.inspectElements_ok ord es h
    exact ⟨"[" ++ ",".intercalate ts ++ "]", by simp only [Object.Inspect, hts]⟩
  | .hash ps, h => by
    simp only [Object.isValue] at h
    obtain ⟨ts, hts⟩ := Object.inspectPairs_ok ord ps h
    exact ⟨"\x7b" ++ ", ".intercalate (ord.enum ts) ++ "\x7d",
      by simp only [Object.Inspect, hts]⟩
  | .set none, h => by simp [Object.isValue] at h
  | .set (some (.mk d)), h => by
    simp only [Object.isValue] at h
    obtain ⟨ts, hts⟩ := Object.inspectKeys_ok ord d h
    exact ⟨"set" ++ "(" ++ ",".intercalate (ord.enum ts) ++ ")",
      by simp only [Object.Inspect, hts]⟩
theorem Object.inspectElements_ok (ord : MapOrder) :
    ∀ es : List Object, Object.areValues es = true →
      ∃ ts, Object.inspectElements ord es = .ok ts
  | [], _ => ⟨[], rfl⟩
  | e :: es, h => by
    simp only [Object.areValues, Bool.and_eq_true] at h
    obtain ⟨t, ht⟩ := Object.Inspect_ok ord e h.1
    obtain ⟨ts, hts⟩ := Object.inspectElements_ok ord es h.2
    exact ⟨t :: ts, by simp only [Object.inspectElements, ht, hts]⟩
theorem Object.inspectPairs_ok (ord : MapOrder) :
    ∀ ps : List (HashKey × HashPair), Object.pairsAreValues ps = true →
      ∃ ts, Object.inspectPairs ord ps = .ok ts
  | [], _ => ⟨[], rfl⟩
  | (_, .mk k v) :: ps, h => by
    simp only [Object.pairsAreValues, Bool.and_eq_true] at h
    obtain ⟨a, ha⟩ := Object.Inspect_ok ord k h.1.1
    obtain ⟨b, hb⟩ := Object.Inspect_ok ord v h.1.2
    obtain ⟨ts, hts⟩ := Object.inspectPairs_ok ord ps h.2
    exact ⟨(a ++ ": " ++ b) :: ts, by simp only [Object.inspectPairs, ha, hb, hts]⟩
theorem Object.inspectKeys_ok (ord : MapOrder) :
    ∀ ps : List (HashKey × HashPair), Object.keysAreValues ps = true →
      ∃ ts, Object.inspectKeys ord ps = .ok ts
  | [], _ => ⟨[], rfl⟩
  | (_, .mk k _) :: ps, h => by
    simp only [Object.keysAreValues, Bool.and_eq_true] at h
    obtain ⟨a, ha⟩ := Object.Inspect_ok ord k h.1
    obtain ⟨ts, hts⟩ := Object.inspectKeys_ok ord ps h.2
    exact ⟨a :: ts, by simp only [Object.inspectKeys, ha, hts]⟩
end

theorem map_Inspect_ok (ord : MapOrder) (es : List Object)
    (h : ∀ e ∈ es, e.isValue = true) :
    ∃ texts : List GoString, es.map (fun e => e.Inspect ord) = texts.map Except.ok := by
  induction es with
  | nil => exact ⟨[], rfl⟩
  | cons e es ih =>
    obtain ⟨t, ht⟩ := Object.Inspect_ok ord e (h e (List.mem_cons_self e es))
    obtain ⟨ts, hts⟩ := ih fun e' he' => h e' (List.mem_cons_of_mem e he')
    exact ⟨t :: ts, by simp only [List.map_cons, ht, hts]⟩

/-- On arguments that are values, however many and of whatever types, `puts`
writes to the output the render texts of the arguments, in order, each followed
by a newline, writes nothing else, and returns Null. -/
theorem puts_writes_one_line_per_argument (ord : MapOrder) (args : List Object)
    (h : ∀ a ∈ args, a.isValue = true) :
    ∃ texts : List GoString,
      args.map (fun e => e.Inspect ord) = texts.map Except.ok ∧
      builtins.puts ord args = (linesOf texts, .ok NULL) ∧
      (builtins "puts").map (fun f => f ord args) = some (linesOf texts, .ok NULL) := by
  obtain ⟨texts, ht⟩ := map_Inspect_ok ord args h
  refine ⟨texts, ht, puts_of_map ord args texts ht, ?_⟩
  show some (builtins.puts ord args) = _
  rw [puts_of_map ord args texts ht]

/-- The builtin `puts` at `puts(1, "a", true)`: the three lines `1`, `a`,
`true`. -/
theorem puts_writes_one_line_per_argument_witness :
    (∀ a ∈ [Object.ofInt 1, Object.ofString "a", Object.ofBool true], a.isValue = true) ∧
    builtins.puts MapOrder.stored [Object.ofInt 1, Object.ofString "a", Object.ofBool true]
      = ("1\na\ntrue\n", .ok NULL) := by
  have hv : ∀ a ∈ [Object.ofInt 1, Object.ofString "a", Object.ofBool true],
      a.isValue = true := by
    intro a ha
    simp only [List.mem_cons, List.mem_singleton, List.not_mem_nil, or_false] at ha
    rcases ha with h | h | h <;> subst h <;> rfl
  obtain ⟨texts, h1, h2, _⟩ := puts_writes_one_line_per_argument MapOrder.stored
    [Object.ofInt 1, Object.ofString "a", Object.ofBool true] hv
  have h3 : texts.map (Except.ok : GoString → Except Panic GoString)
      = ["1", "a", "true"].map Except.ok := h1.symm.trans rfl
  have h4 : texts = ["1", "a", "true"] :=
    List.map_injective_iff.2 (fun _ _ hab => Except.ok.inj hab) h3
  rw [h4] at h2
  exact ⟨hv, h2.trans rfl⟩

/-- C15, evaluated on the code: `push(set(true), "v")` returns the nil Set
pointer, and `puts(1, push(set(true), "v"))` writes the line `1` and then
faults with a nil dereference in `Inspect`, where the claim has it write a
second line and return Null. -/
theorem puts_of_pushed_set_faults (ord : MapOrder) :
    builtins.push ord [Object.ofElements [Object.ofBool true], Object.ofString "v"]
      = .ok (Object.set none) ∧
    builtins.puts ord [Object.ofInt 1, Object.set none]
      = ("1\n", .error Panic.nilDereference) ∧
    (builtins "puts").map (fun f => f ord [Object.ofInt 1, Object.set none])
      = some ("1\n", .error Panic.nilDereference) :=
  ⟨push_set_eq_nil ord _ _, rfl, rfl⟩

/-- C16: the render of an Array of values is `[`, the renders of its elements in
order joined by `,` with no space, and `]`; so the empty Array renders as `[]`
and a nested Array is rendered inside its parent. An Integer renders as its
decimal numeral, a Boolean as `true` or `false`, Null as `null`, a String as its
contents and an Error as `ERROR: ` and its message. -/
theorem Array_Inspect_joins_elements (ord : MapOrder) (es : List Object)
    (h : ∀ e ∈ es, e.isValue = true) :
    (∃ texts : List GoString,
      es.map (fun e => e.Inspect ord) = texts.map Except.ok ∧
      (Object.array es).Inspect ord = .ok ("[" ++ ",".intercalate texts ++ "]")) ∧
    (Object.array []).Inspect ord = .ok "[]" ∧
    (∀ i : Integer, (Object.integer i).Inspect ord = .ok (decimal i.Value.val)) ∧
    (Object.ofBool true).Inspect ord = .ok "true" ∧
    (Object.ofBool false).Inspect ord = .ok "false" ∧
    Object.null.Inspect ord = .ok "null" ∧
    (∀ s : String, (Object.string s).Inspect ord = .ok s.Value) ∧
    (∀ m : GoString, (Object.error m).Inspect ord = .ok ("ERROR: " ++ m)) ∧
    (Object.array [Object.array [Object.ofInt 1, Object.ofInt (-2)], Object.array [],
        Object.ofString "x", Object.ofBool true, Object.null, Object.error "m"]).Inspect ord
      = .ok "[[1,-2],[],x,true,null,ERROR: m]" := by
  refine ⟨?_, rfl, Inspect_integer ord, rfl, rfl, rfl, fun _ => rfl, fun _ => rfl, rfl⟩
  obtain ⟨texts, ht⟩ := map_Inspect_ok ord es h
  refine ⟨texts, ht, ?_⟩
  simp only [Object.Inspect, inspectElements_of_map ord es texts ht]

/-- C16 at the Array `[[1,2], 3]`, which renders as `[[1,2],3]`. -/
theorem Array_Inspect_joins_elements_witness :
    (∀ e ∈ [Object.array [Object.ofInt 1, Object.ofInt 2], Object.ofInt 3],
      e.isValue = true) ∧
    (Object.array [Object.array [Object.ofInt 1, Object.ofInt 2], Object.ofInt 3]).Inspect
        MapOrder.stored = .ok "[[1,2],3]" := by
  have hv : ∀ e ∈ [Object.array [Object.ofInt 1, Object.ofInt 2], Object.ofInt 3],
      e.isValue = true := by
    intro e he
    simp only [List.mem_cons, List.mem_singleton, List.not_mem_nil, or_false] at he
    rcases he with h | h <;> subst h <;> rfl
  obtain ⟨⟨texts, h1, h2⟩, _⟩ := Array_Inspect_joins_elements MapOrder.stored
    [Object.array [Object.ofInt 1, Object.ofInt 2], Object.ofInt 3] hv
  have h3 : texts.map (Except.ok : GoString → Except Panic GoString)
      = ["[1,2]", "3"].map Except.ok := h1.symm.trans rfl
  have h4 : texts = ["[1,2]", "3"] :=
    List.map_injective_iff.2 (fun _ _ hab => Except.ok.inj hab) h3
  rw [h4] at h2
  exact ⟨hv, h2.trans rfl⟩

/-! ## The memo of `HashKey` -/

theorem Hashable.HashKey_snd_fixed (h : Hashable) :
    ((h.HashKey).2.HashKey).2 = (h.HashKey).2 := by
  cases h with
  | integer i =>
    obtain ⟨v, c⟩ := i
    cases c <;> rfl
  | boolean b =>
    obtain ⟨v, c⟩ := b
    cases c <;> rfl
  | string s =>
    obtain ⟨v, c⟩ := s
    cases c <;> rfl

theorem Hashable.iterate_HashKey (h : Hashable) (n : Nat) :
    (fun x => (Hashable.HashKey x).2)^[n] (h.HashKey).2 = (h.HashKey).2 :=
  Function.iterate_fixed (Hashable.HashKey_snd_fixed h) n

/-- C17: on an Integer, Boolean or String whose memo is empty, the first
`HashKey` call returns the key computed from `Value` (the type tag with the
64-bit pattern, 1 or 0, or the FNV-1a digest of the bytes), stores it in the
memo and leaves `Value` as it was; each later call, however many, returns the
same key and leaves the instance as it is; the memo is the key recomputed from
`Value`. -/
theorem HashKey_memoises (h : Hashable) (hempty : h.hash = none) (n : Nat) :
    (∀ i, h = Hashable.integer i → (h.HashKey).1 = ⟨INTEGER_OBJ, uint64 i.Value⟩) ∧
    (∀ b, h = Hashable.boolean b →
      (h.HashKey).1 = ⟨BOOLEAN_OBJ, if b.Value = true then 1 else 0⟩) ∧
    (∀ s, h = Hashable.string s → (h.HashKey).1 = ⟨STRING_OBJ, fnv64a (bytes s.Value)⟩) ∧
    (h.HashKey).2.hash = some (h.HashKey).1 ∧
    (h.HashKey).2.fresh = h ∧
    ((h.HashKey).2).HashKey = ((h.HashKey).1, (h.HashKey).2) ∧
    ((fun x => (Hashable.HashKey x).2)^[n] (h.HashKey).2).HashKey
      = ((h.HashKey).1, (h.HashKey).2) ∧
    (h.HashKey).2.hash = some ((h.HashKey).2.fresh.HashKey).1 := by
  have hfix : ((h.HashKey).2).HashKey = ((h.HashKey).1, (h.HashKey).2) :=
    Prod.ext (Hashable.HashKey_idem h) (Hashable.HashKey_snd_fixed h)
  rw [Hashable.iterate_HashKey]
  cases h with
  | integer i =>
    obtain ⟨v, c⟩ := i
    simp only [Hashable.hash] at hempty
    subst hempty
    exact ⟨fun i hi => (by cases hi; rfl), fun b hb => (by cases hb),
      fun s hs => (by cases hs), rfl, rfl, hfix, hfix, rfl⟩
  | boolean b =>
    obtain ⟨v, c⟩ := b
    simp only [Hashable.hash] at hempty
    subst hempty
    exact ⟨fun i hi => (by cases hi), fun b hb => (by cases hb; rfl),
      fun s hs => (by cases hs), rfl, rfl, hfix, hfix, rfl⟩
  | string s =>
    obtain ⟨v, c⟩ := s
    simp only [Hashable.hash] at hempty
    subst hempty
    exact ⟨fun i hi => (by cases hi), fun b hb => (by cases hb),
      fun s hs => (by cases hs; rfl), rfl, rfl, hfix, hfix, rfl⟩

/-- C17 at a fresh String "a", called four times in all. -/
theorem HashKey_memoises_witness :
    (Hashable.string ⟨"a", none⟩).hash = none ∧
    ((fun x => (Hashable.HashKey x).2)^[3] ((Hashable.string ⟨"a", none⟩).HashKey).2).HashKey
      = (⟨STRING_OBJ, 12638187200555641996⟩,
          Hashable.string ⟨"a", some ⟨STRING_OBJ, 12638187200555641996⟩⟩) :=
  ⟨rfl, (HashKey_memoises (Hashable.string ⟨"a", none⟩) rfl 3).2.2.2.2.2.2.1.trans (by decide)⟩

/-! ## The Set builtins as they are -/

/-- C18: for any two Sets, in whatever order their maps are visited, `union`
returns a Set with no members, whose `len` is 0: `copy` into the nil slice
copies nothing, so `NewSet` gets no element. -/
theorem union_of_sets_has_no_members (ord : MapOrder) (a b : Set) :
    builtins.union ord [Object.set (some a), Object.set (some b)]
      = .ok (Object.set (some (Set.mk []))) ∧
    builtins.len ord [Object.set (some (Set.mk []))] = .ok (Object.ofInt 0) ∧
    (∀ src : List Object, copy [] src = []) ∧
    NewSet [] = some (Set.mk []) :=
  ⟨union_sets_eq_empty ord a b, (len_set ord (Set.mk [])).trans rfl, copy_nil_dst, rfl⟩

/-- C19 as stated fails: `push(set(true), "v")` returns no Set at all, so not a
Set with the members of its argument. -/
theorem push_set_returns_no_set :
    ¬ ∃ s : Set, builtins.push MapOrder.stored
        [Object.ofElements [Object.ofBool true], Object.ofString "v"]
      = .ok (Object.set (some s)) := by
  rintro ⟨s, hs⟩
  have h : builtins.push MapOrder.stored
      [Object.ofElements [Object.ofBool true], Object.ofString "v"]
        = .ok (Object.set none) := push_set_eq_nil MapOrder.stored _ _
  rw [h] at hs
  simp at hs

/-- C19, amended: for every Set and every value, in whatever order the map is
visited, `push` returns the nil Set pointer: the value is not added and the
members are not kept either. The result still answers `Type()` with SET, and
its `Elements()` faults. -/
theorem push_set_returns_nil_pointer (ord : MapOrder) (s : Set) (v : Object) :
    builtins.push ord [Object.set (some s), v] = .ok (Object.set none) ∧
    (Object.set none).Type_ = .ok SET_OBJ ∧
    Set.Elements ord none = .error Panic.nilDereference ∧
    NewSet ((ord.enum s.Data).map (fun kv => kv.2.Key) ++ [Object.nil]) = none :=
  ⟨push_set_eq_nil ord s v, rfl, rfl, NewSet_append_nil _⟩


/-! ## Rebuilding a Set from its members -/

theorem Object.afterHashKey_afterHashKey (o : Object) :
    o.afterHashKey.afterHashKey = o.afterHashKey := by
  unfold Object.afterHashKey
  cases ho : o.asHashable with
  | none => simp [ho]
  | some h => simp [Hashable.asHashable_toObject, Hashable.HashKey_snd_fixed]

theorem eq_of_mem_of_nodup_keys {κ ν : Type} (m : List (κ × ν)) (k : κ) (v v' : ν)
    (hnd : (m.map Prod.fst).Nodup) (h : (k, v) ∈ m) (h' : (k, v') ∈ m) : v = v' := by
  induction m with
  | nil => simp at h
  | cons kv rest ih =>
    simp only [List.map_cons, List.nodup_cons] at hnd
    rcases List.mem_cons.1 h with h1 | h1
    · rcases List.mem_cons.1 h' with h2 | h2
      · rw [← h2] at h1
        exact (Prod.mk.inj h1).2
      · exfalso
        apply hnd.1
        rw [← h1]
        exact List.mem_map.2 ⟨(k, v'), h2, rfl⟩
    · rcases List.mem_cons.1 h' with h2 | h2
      · exfalso
        apply hnd.1
        rw [← h2]
        exact List.mem_map.2 ⟨(k, v), h1, rfl⟩
      · exact ih hnd.2 h1 h2

/-- C20: for a list of hashable elements, `NewSet` of the members that
`Elements()` enumerates, in whatever order, succeeds and gives a map with the
same entries, HashKey by HashKey, as the Set it came from; in that Set every map
key is the HashKey of the original key stored under it and the associated value
is nil. -/
theorem NewSet_of_Elements_is_the_same_set (ord : MapOrder) (l : List Object)
    (hl : ∀ e ∈ l, e.asHashable.isSome = true) :
    ∃ s es s', NewSet l = some s ∧ Set.Elements ord (some s) = .ok es ∧
      NewSet es = some s' ∧
      (∀ k p, (k, p) ∈ s'.Data ↔ (k, p) ∈ s.Data) ∧
      (s.Data.map Prod.fst).Nodup ∧ (s'.Data.map Prod.fst).Nodup ∧
      s'.Data.Perm s.Data ∧
      ∀ k p, (k, p) ∈ s.Data → p.Key.hashKey? = some k ∧ p.Value = Object.nil := by
  obtain ⟨d, hd, hdn, -, hdp⟩ := NewSet_loop_spec l [] hl (by simp)
  -- every entry of the first map: its key is the HashKey of the stored member
  have hentry : ∀ k p, (k, p) ∈ d →
      p.Key.hashKey? = some k ∧ p = HashPair.mk p.Key Object.nil ∧
        p.Key.afterHashKey = p.Key := by
    intro k p hkp
    rcases hdp k p hkp with ⟨hin, _⟩ | ⟨l1, e, l2, _, he, _, hp⟩
    · simp at hin
    · subst hp
      exact ⟨by simp [HashPair.Key, Object.hashKey?_afterHashKey, he], rfl,
        by simp [HashPair.Key, Object.afterHashKey_afterHashKey]⟩
  have hmem_es : ∀ e, e ∈ (ord.enum d).map (fun kv => kv.2.Key) ↔
      ∃ k p, (k, p) ∈ d ∧ p.Key = e := by
    intro e
    simp only [List.mem_map, Prod.exists, (ord.perm d).mem_iff]
  have hes : ∀ e ∈ (ord.enum d).map (fun kv => kv.2.Key), e.asHashable.isSome = true := by
    intro e he
    obtain ⟨k, p, hkp, rfl⟩ := (hmem_es e).1 he
    have := (hentry k p hkp).1
    simp only [Object.hashKey?] at this
    cases hh : p.Key.asHashable with
    | none => simp [hh] at this
    | some h => rfl
  obtain ⟨d', hd', hdn', hdk', hdp'⟩ :=
    NewSet_loop_spec ((ord.enum d).map (fun kv => kv.2.Key)) [] hes (by simp)
  have hsub : ∀ k p, (k, p) ∈ d' → (k, p) ∈ d := by
    intro k p hkp
    rcases hdp' k p hkp with ⟨hin, _⟩ | ⟨l1, e, l2, hl1, he, _, hp⟩
    · simp at hin
    · have hein : e ∈ (ord.enum d).map (fun kv => kv.2.Key) := by
        rw [hl1]
        simp
      obtain ⟨k0, p0, hkp0, hp0⟩ := (hmem_es e).1 hein
      obtain ⟨h1, h2, h3⟩ := hentry k0 p0 hkp0
      rw [hp0] at h1 h2 h3
      have hk : k0 = k := Option.some.inj (h1.symm.trans he)
      rw [hp, h3, ← h2, ← hk]
      exact hkp0
  have hsup : ∀ k p, (k, p) ∈ d → (k, p) ∈ d' := by
    intro k p hkp
    have hk : k ∈ d'.map Prod.fst := by
      rw [hdk' k]
      right
      rw [List.mem_map]
      exact ⟨p.Key, (hmem_es p.Key).2 ⟨k, p, hkp, rfl⟩, (hentry k p hkp).1⟩
    obtain ⟨⟨k1, p1⟩, hin1, hk1⟩ := List.mem_map.1 hk
    simp only at hk1
    subst hk1
    have := eq_of_mem_of_nodup_keys d k1 p1 p hdn (hsub k1 p1 hin1) hkp
    rw [← this]
    exact hin1
  have hiff : ∀ k p, (k, p) ∈ d' ↔ (k, p) ∈ d := fun k p => ⟨hsub k p, hsup k p⟩
  refine ⟨Set.mk d, (ord.enum d).map (fun kv : HashKey × HashPair => kv.2.Key), Set.mk d',
    by simp [NewSet, hd],
    rfl, by simp [NewSet, hd'], hiff, hdn, hdn', ?_, ?_⟩
  · show d'.Perm d
    rw [List.perm_ext_iff_of_nodup (List.Nodup.of_map _ hdn') (List.Nodup.of_map _ hdn)]
    rintro ⟨k, p⟩
    exact hiff k p
  · intro k p hkp
    obtain ⟨h1, h2, _⟩ := hentry k p hkp
    refine ⟨h1, ?_⟩
    rw [h2]
    rfl

/-- C20 at the list 1, 2, 1, the members being enumerated as stored. -/
theorem NewSet_of_Elements_is_the_same_set_witness :
    (∀ e ∈ [Object.ofInt 1, Object.ofInt 2, Object.ofInt 1], e.asHashable.isSome = true) ∧
    ∃ s es s', NewSet [Object.ofInt 1, Object.ofInt 2, Object.ofInt 1] = some s ∧
      Set.Elements MapOrder.stored (some s) = .ok es ∧ NewSet es = some s' ∧
      s'.Data.Perm s.Data := by
  have hl : ∀ e ∈ [Object.ofInt 1, Object.ofInt 2, Object.ofInt 1],
      e.asHashable.isSome = true := by
    intro e he
    simp only [List.mem_cons, List.mem_singleton, List.not_mem_nil, or_false] at he
    rcases he with h | h | h <;> subst h <;> rfl
  obtain ⟨s, es, s', h1, h2, h3, _, _, _, h4, _⟩ :=
    NewSet_of_Elements_is_the_same_set MapOrder.stored
      [Object.ofInt 1, Object.ofInt 2, Object.ofInt 1] hl
  exact ⟨hl, s, es, s', h1, h2, h3, h4⟩

end Monkey
